import Mathlib

/-
Shallow embedding of the weather-LSTM core of the `playground` repository
(`src/weather-lstm/src/lstm.c`, which also contains the matrix module, and
`src/weather-lstm/src/weather_data.c`), together with theorems settling the
frozen claims about it.

Modelling conventions, used uniformly below:
  * C `double` values are modelled as real numbers (`ℝ`).
  * A C `Matrix*` value (a struct with `rows`, `cols` and a row-pointer
    array `data`) is modelled as the structure `CMatrix` below; a possibly
    NULL `Matrix*` is `Option CMatrix`, with `none` standing for NULL.
  * Heap allocation is modelled as always succeeding; the only failure
    paths kept are the explicit argument checks performed by the C code.
  * In-place mutation is modelled by explicit state passing: a C function
    that mutates a struct returns the updated structure.
-/

namespace WeatherLSTM

/-- Model of the C `Matrix` struct from `matrix.h`: row and column counts
plus the stored elements, row-major (`data` is the list of rows). -/
@[ext]
structure CMatrix where
  rows : Nat
  cols : Nat
  data : List (List ℝ)

/-- Reading `m->data[i][j]`.  Out-of-range reads (which the C code never
performs on well-formed matrices) default to `0`. -/
def CMatrix.entry (m : CMatrix) (i j : Nat) : ℝ :=
  (m.data.getD i []).getD j 0

/-- Writing `m->data[i][j] = v`; a no-op when the index is outside the
stored data (unreachable in the C code on well-formed matrices). -/
def CMatrix.setEntry (m : CMatrix) (i j : Nat) (v : ℝ) : CMatrix :=
  { m with data := m.data.set i ((m.data.getD i []).set j v) }

/-- Structural invariant of every matrix the C module builds: `data` holds
exactly `rows` rows of exactly `cols` elements each. -/
def CMatrix.WF (m : CMatrix) : Prop :=
  m.data.length = m.rows ∧ ∀ r ∈ m.data, r.length = m.cols

instance (m : CMatrix) : Decidable m.WF := by
  unfold CMatrix.WF; infer_instance

/-- Shape predicate: `m` is a well-formed `r × c` matrix. -/
def CMatrix.Shaped (m : CMatrix) (r c : Nat) : Prop :=
  m.rows = r ∧ m.cols = c ∧ m.WF

instance (m : CMatrix) (r c : Nat) : Decidable (m.Shaped r c) := by
  unfold CMatrix.Shaped; infer_instance

/-- Result of the nested `for i … for j …` fill loops used throughout
`matrix.c`: an `r × c` matrix whose `(i,j)` element is `f i j`. -/
def ofFn (r c : Nat) (f : Nat → Nat → ℝ) : CMatrix :=
  { rows := r, cols := c,
    data := (List.range r).map fun i => (List.range c).map fun j => f i j }

/-- Accumulation loop `for k { sum += f k }` starting from `sum = 0`,
as in the inner loop of `matrix_multiply`. -/
def sumR (n : Nat) (f : Nat → ℝ) : ℝ :=
  (List.range n).foldl (fun s k => s + f k) 0

/-- Fresh `rows × cols` matrix with `calloc`-zeroed entries. -/
def mkMatrix (rows cols : Nat) : CMatrix :=
  { rows := rows, cols := cols,
    data := List.replicate rows (List.replicate cols 0) }

/-- Model of `matrix_create` (`lstm.c:540`).  The C code performs no check
on `rows`/`cols`; it returns NULL only on allocation failure, and
allocation is modelled as succeeding, so the model always returns a
zero-filled matrix of the requested shape. -/
def matrix_create (rows cols : Nat) : Option CMatrix :=
  some (mkMatrix rows cols)

/-- Model of `matrix_zero` (`lstm.c:580`): overwrite every stored element
with `0.0`, in place. -/
def matrix_zero (m : CMatrix) : CMatrix :=
  { m with data := m.data.map fun r => r.map fun _ => 0 }

/-- Model of `matrix_random` (`lstm.c:591`): fill with
`min + random * (max - min)` where `random = rand()/RAND_MAX`.  The RNG is
modelled as an oracle `rand : Nat → ℝ` consumed at successive indices
starting from `base`, row-major. -/
def matrix_random (rand : Nat → ℝ) (base : Nat) (m : CMatrix) (lo hi : ℝ) : CMatrix :=
  ofFn m.rows m.cols fun i j => lo + rand (base + i * m.cols + j) * (hi - lo)

/-- Model of `matrix_copy` (`lstm.c:603`): copy `src`'s elements into
`dest` when the shapes agree, otherwise do nothing. -/
def matrix_copy (dest src : CMatrix) : CMatrix :=
  if dest.rows = src.rows ∧ dest.cols = src.cols then
    { dest with data := src.data }
  else dest

/-- Variant of `matrix_copy` whose source pointer may be NULL (the C
function returns without copying when `src` is NULL). -/
def matrix_copy_opt (dest : CMatrix) : Option CMatrix → CMatrix
  | none => dest
  | some src => matrix_copy dest src

/-- Model of `matrix_multiply` (`lstm.c:616`): NULL (`none`) on an inner
dimension mismatch, otherwise the `a.rows × b.cols` product computed by
the triple loop. -/
def matrix_multiply (a b : CMatrix) : Option CMatrix :=
  if a.cols = b.rows then
    some (ofFn a.rows b.cols fun i j => sumR a.cols fun k => a.entry i k * b.entry k j)
  else none

/-- Model of `matrix_add` (`lstm.c:638`): NULL on shape mismatch,
otherwise the elementwise sum. -/
def matrix_add (a b : CMatrix) : Option CMatrix :=
  if a.rows = b.rows ∧ a.cols = b.cols then
    some (ofFn a.rows a.cols fun i j => a.entry i j + b.entry i j)
  else none

/-- Model of `matrix_subtract` (`lstm.c:656`): NULL on shape mismatch,
otherwise the elementwise difference. -/
def matrix_subtract (a b : CMatrix) : Option CMatrix :=
  if a.rows = b.rows ∧ a.cols = b.cols then
    some (ofFn a.rows a.cols fun i j => a.entry i j - b.entry i j)
  else none

/-- Model of `matrix_transpose` (`lstm.c:674`); the C function fails only
on a NULL argument, handled by the callers through `Option.map`. -/
def matrix_transpose (m : CMatrix) : CMatrix :=
  ofFn m.cols m.rows fun i j => m.entry j i

/-- Model of `matrix_scale` (`lstm.c:690`): multiply every stored element
by `scalar`, in place. -/
def matrix_scale (m : CMatrix) (scalar : ℝ) : CMatrix :=
  { m with data := m.data.map fun r => r.map fun x => x * scalar }

/-- Model of `matrix_get` (`lstm.c:717`): bounds-checked read returning
the sentinel `0.0` out of bounds.  Indices are C `int`s, hence `Int`. -/
def matrix_get (m : CMatrix) (row col : Int) : ℝ :=
  if row < 0 ∨ (m.rows : Int) ≤ row ∨ col < 0 ∨ (m.cols : Int) ≤ col then 0
  else m.entry row.toNat col.toNat

/-- Model of `matrix_set` (`lstm.c:725`): bounds-checked write; a no-op
out of bounds. -/
def matrix_set (m : CMatrix) (row col : Int) (value : ℝ) : CMatrix :=
  if row < 0 ∨ (m.rows : Int) ≤ row ∨ col < 0 ∨ (m.cols : Int) ≤ col then m
  else m.setEntry row.toNat col.toNat value

/-- Model of `sigmoid` (`lstm.c:733`). -/
noncomputable def sigmoid (x : ℝ) : ℝ :=
  1 / (1 + Real.exp (-x))

/-- Model of `tanh_activation` (`lstm.c:737`). -/
noncomputable def tanh_activation (x : ℝ) : ℝ :=
  Real.tanh x

/-- Model of `apply_sigmoid` (`lstm.c:746`): elementwise, in place. -/
noncomputable def apply_sigmoid (m : CMatrix) : CMatrix :=
  { m with data := m.data.map fun r => r.map sigmoid }

/-- Model of `apply_tanh` (`lstm.c:756`): elementwise, in place. -/
noncomputable def apply_tanh (m : CMatrix) : CMatrix :=
  { m with data := m.data.map fun r => r.map tanh_activation }

/-- NULL-propagating matrix product, as used by callers that pass results
of fallible operations straight back into `matrix_multiply`. -/
def omul : Option CMatrix → Option CMatrix → Option CMatrix
  | some a, some b => matrix_multiply a b
  | _, _ => none

/-- NULL-propagating matrix sum. -/
def oadd : Option CMatrix → Option CMatrix → Option CMatrix
  | some a, some b => matrix_add a b
  | _, _ => none

/-- NULL-propagating matrix difference. -/
def osub : Option CMatrix → Option CMatrix → Option CMatrix
  | some a, some b => matrix_subtract a b
  | _, _ => none

/-- Model of the C `LSTMCell` struct from `lstm.h`: dimensions, the four
input-to-gate and four recurrent weight matrices, four biases, the cell
and hidden state, and the four gate scratch matrices the forward pass
writes into. -/
structure LSTMCell where
  input_size : Nat
  hidden_size : Nat
  W_f : CMatrix
  W_i : CMatrix
  W_c : CMatrix
  W_o : CMatrix
  U_f : CMatrix
  U_i : CMatrix
  U_c : CMatrix
  U_o : CMatrix
  b_f : CMatrix
  b_i : CMatrix
  b_c : CMatrix
  b_o : CMatrix
  cell_state : CMatrix
  hidden_state : CMatrix
  forget_gate : CMatrix
  input_gate : CMatrix
  candidate_gate : CMatrix
  output_gate : CMatrix

/-- Structural invariant established by `lstm_cell_create` and preserved
by every cell operation: all matrices have the documented shapes. -/
def CellWF (c : LSTMCell) : Prop :=
  c.W_f.Shaped c.hidden_size c.input_size ∧ c.W_i.Shaped c.hidden_size c.input_size ∧
  c.W_c.Shaped c.hidden_size c.input_size ∧ c.W_o.Shaped c.hidden_size c.input_size ∧
  c.U_f.Shaped c.hidden_size c.hidden_size ∧ c.U_i.Shaped c.hidden_size c.hidden_size ∧
  c.U_c.Shaped c.hidden_size c.hidden_size ∧ c.U_o.Shaped c.hidden_size c.hidden_size ∧
  c.b_f.Shaped c.hidden_size 1 ∧ c.b_i.Shaped c.hidden_size 1 ∧
  c.b_c.Shaped c.hidden_size 1 ∧ c.b_o.Shaped c.hidden_size 1 ∧
  c.cell_state.Shaped c.hidden_size 1 ∧ c.hidden_state.Shaped c.hidden_size 1 ∧
  c.forget_gate.Shaped c.hidden_size 1 ∧ c.input_gate.Shaped c.hidden_size 1 ∧
  c.candidate_gate.Shaped c.hidden_size 1 ∧ c.output_gate.Shaped c.hidden_size 1

instance (c : LSTMCell) : Decidable (CellWF c) := by
  unfold CellWF; infer_instance

/-- Model of `initialize_weights` (`lstm.c:5`): Xavier-scaled uniform fill
via `matrix_random` with limit `sqrt(6/(rows+cols)) * scale`. -/
noncomputable def initialize_weights (rand : Nat → ℝ) (base : Nat) (m : CMatrix)
    (scale : ℝ) : CMatrix :=
  let limit := Real.sqrt (6 / ((m.rows : ℝ) + (m.cols : ℝ))) * scale
  matrix_random rand base m (-limit) limit

/-- Model of `lstm_cell_create` (`lstm.c:13`).  All allocations are
modelled as succeeding; the eight weight matrices consume the random
oracle in the order the C code calls `rand()`, the biases are zero except
the forget-gate bias which is set to `1.0` per entry, and the states and
scratch gates start zero-filled. -/
noncomputable def lstm_cell_create (rand : Nat → ℝ) (input_size hidden_size : Nat) :
    LSTMCell :=
  let hi := hidden_size * input_size
  let hh := hidden_size * hidden_size
  { input_size := input_size
    hidden_size := hidden_size
    W_f := initialize_weights rand 0 (mkMatrix hidden_size input_size) 1
    W_i := initialize_weights rand hi (mkMatrix hidden_size input_size) 1
    W_c := initialize_weights rand (2 * hi) (mkMatrix hidden_size input_size) 1
    W_o := initialize_weights rand (3 * hi) (mkMatrix hidden_size input_size) 1
    U_f := initialize_weights rand (4 * hi) (mkMatrix hidden_size hidden_size) 1
    U_i := initialize_weights rand (4 * hi + hh) (mkMatrix hidden_size hidden_size) 1
    U_c := initialize_weights rand (4 * hi + 2 * hh) (mkMatrix hidden_size hidden_size) 1
    U_o := initialize_weights rand (4 * hi + 3 * hh) (mkMatrix hidden_size hidden_size) 1
    b_f := { rows := hidden_size, cols := 1, data := List.replicate hidden_size [1] }
    b_i := mkMatrix hidden_size 1
    b_c := mkMatrix hidden_size 1
    b_o := mkMatrix hidden_size 1
    cell_state := mkMatrix hidden_size 1
    hidden_state := mkMatrix hidden_size 1
    forget_gate := mkMatrix hidden_size 1
    input_gate := mkMatrix hidden_size 1
    candidate_gate := mkMatrix hidden_size 1
    output_gate := mkMatrix hidden_size 1 }

/-- Model of `lstm_cell_reset_state` (`lstm.c:115`): zero the cell and
hidden state in place. -/
def lstm_cell_reset_state (c : LSTMCell) : LSTMCell :=
  { c with cell_state := matrix_zero c.cell_state
           hidden_state := matrix_zero c.hidden_state }

/-- Cell-state update loop of `lstm_cell_forward` (`lstm.c:159`):
`cell_state[i] = forget[i]*cell_state[i] + input_gate[i]*candidate[i]`
for `i` below `n`.  The scratch vectors `forget_cell` and
`input_candidate` of the C code hold exactly the two products and are
freed straight after, so they are inlined here. -/
def cellStateLoop (fg ig cg : CMatrix) (n : Nat) (cs : CMatrix) : CMatrix :=
  (List.range n).foldl
    (fun m i => m.setEntry i 0 (fg.entry i 0 * m.entry i 0 + ig.entry i 0 * cg.entry i 0)) cs

/-- Hidden-state update loop of `lstm_cell_forward` (`lstm.c:170`):
`hidden_state[i] = output_gate[i] * cell_tanh[i]` for `i` below `n`. -/
def hiddenStateLoop (og ct : CMatrix) (n : Nat) (hs : CMatrix) : CMatrix :=
  (List.range n).foldl (fun m i => m.setEntry i 0 (og.entry i 0 * ct.entry i 0)) hs

/-- Pre-activation of one gate in `lstm_cell_forward` (`lstm.c:127`…):
`W·input + U·hidden_state + b`, computed through the fallible (NULL
propagating) matrix operations exactly as the C temporaries
`W_x_g`, `U_h_g`, `g_temp`, `g_temp2` are. -/
def gatePre (cell : LSTMCell) (W U b input : CMatrix) : Option CMatrix :=
  oadd (oadd (omul (some W) (some input)) (omul (some U) (some cell.hidden_state))) (some b)

/-- Forget gate written by `lstm_cell_forward` (`lstm.c:127`): the
pre-activation is copied into the scratch matrix (`matrix_copy` is a
no-op on NULL or shape mismatch) and `apply_sigmoid` runs in place. -/
noncomputable def forgetGateOf (cell : LSTMCell) (input : CMatrix) : CMatrix :=
  apply_sigmoid (matrix_copy_opt cell.forget_gate (gatePre cell cell.W_f cell.U_f cell.b_f input))

/-- Input gate written by `lstm_cell_forward` (`lstm.c:134`). -/
noncomputable def inputGateOf (cell : LSTMCell) (input : CMatrix) : CMatrix :=
  apply_sigmoid (matrix_copy_opt cell.input_gate (gatePre cell cell.W_i cell.U_i cell.b_i input))

/-- Candidate gate written by `lstm_cell_forward` (`lstm.c:141`):
`apply_tanh` instead of `apply_sigmoid`. -/
noncomputable def candidateGateOf (cell : LSTMCell) (input : CMatrix) : CMatrix :=
  apply_tanh (matrix_copy_opt cell.candidate_gate (gatePre cell cell.W_c cell.U_c cell.b_c input))

/-- Output gate written by `lstm_cell_forward` (`lstm.c:148`). -/
noncomputable def outputGateOf (cell : LSTMCell) (input : CMatrix) : CMatrix :=
  apply_sigmoid (matrix_copy_opt cell.output_gate (gatePre cell cell.W_o cell.U_o cell.b_o input))

/-- New cell state written by the loop at `lstm.c:159`. -/
noncomputable def cellStateOf (cell : LSTMCell) (input : CMatrix) : CMatrix :=
  cellStateLoop (forgetGateOf cell input) (inputGateOf cell input)
    (candidateGateOf cell input) cell.hidden_size cell.cell_state

/-- The `cell_tanh` temporary of `lstm_cell_forward` (`lstm.c:166`): a
fresh matrix receiving a copy of the new cell state, passed through
`apply_tanh`. -/
noncomputable def cellTanhOf (cell : LSTMCell) (input : CMatrix) : CMatrix :=
  apply_tanh (matrix_copy (mkMatrix cell.hidden_size 1) (cellStateOf cell input))

/-- New hidden state written by the loop at `lstm.c:170`. -/
noncomputable def hiddenStateOf (cell : LSTMCell) (input : CMatrix) : CMatrix :=
  hiddenStateLoop (outputGateOf cell input) (cellTanhOf cell input)
    cell.hidden_size cell.hidden_state

/-- Model of `lstm_cell_forward` (`lstm.c:123`), assembled from the gate
and state components above: returns the freshly allocated copy of the new
hidden state (`lstm.c:182`) together with the updated cell. -/
noncomputable def lstm_cell_forward (cell : LSTMCell) (input : CMatrix) :
    CMatrix × LSTMCell :=
  (matrix_copy (mkMatrix cell.hidden_size 1) (hiddenStateOf cell input),
    { cell with forget_gate := forgetGateOf cell input
                input_gate := inputGateOf cell input
                candidate_gate := candidateGateOf cell input
                output_gate := outputGateOf cell input
                cell_state := cellStateOf cell input
                hidden_state := hiddenStateOf cell input })

/-- Mathematical value of a gate pre-activation, elementwise:
`(W·input)[i] + (U·hidden_state)[i] + b[i]` with the dot products spelled
out, exactly the quantity `pre_g` of the specification. -/
def preActivation (cell : LSTMCell) (W U b input : CMatrix) (i : Nat) : ℝ :=
  sumR cell.input_size (fun j => W.entry i j * input.entry j 0) +
    sumR cell.hidden_size (fun j => U.entry i j * cell.hidden_state.entry j 0) +
    b.entry i 0

/-- Model of the C `WeatherPoint` struct from `weather_data.h`: six named
double fields. -/
@[ext]
structure WeatherPoint where
  temperature : ℝ
  pressure : ℝ
  humidity : ℝ
  wind_speed : ℝ
  wind_direction : ℝ
  precipitation : ℝ

/-- The zero-initialized `WeatherPoint result = {0}` value used by
`lstm_predict_next` and `matrix_to_weather_point` as their failure
result. -/
def zeroWeatherPoint : WeatherPoint :=
  ⟨0, 0, 0, 0, 0, 0⟩

/-- Model of the C `NormalizationParams` struct from `weather_data.h`:
per-feature min/max pairs, in declaration order. -/
@[ext]
structure NormalizationParams where
  temp_min : ℝ
  temp_max : ℝ
  pressure_min : ℝ
  pressure_max : ℝ
  humidity_min : ℝ
  humidity_max : ℝ
  wind_speed_min : ℝ
  wind_speed_max : ℝ
  wind_dir_min : ℝ
  wind_dir_max : ℝ
  precip_min : ℝ
  precip_max : ℝ

/-- Min/max accumulation step of `calculate_normalization_params`
(`weather_data.c:178`): widen the running bounds with one point. -/
noncomputable def normExtend (ps : NormalizationParams) (q : WeatherPoint) : NormalizationParams :=
  { temp_min := if q.temperature < ps.temp_min then q.temperature else ps.temp_min
    temp_max := if q.temperature > ps.temp_max then q.temperature else ps.temp_max
    pressure_min := if q.pressure < ps.pressure_min then q.pressure else ps.pressure_min
    pressure_max := if q.pressure > ps.pressure_max then q.pressure else ps.pressure_max
    humidity_min := if q.humidity < ps.humidity_min then q.humidity else ps.humidity_min
    humidity_max := if q.humidity > ps.humidity_max then q.humidity else ps.humidity_max
    wind_speed_min := if q.wind_speed < ps.wind_speed_min then q.wind_speed else ps.wind_speed_min
    wind_speed_max := if q.wind_speed > ps.wind_speed_max then q.wind_speed else ps.wind_speed_max
    wind_dir_min := if q.wind_direction < ps.wind_dir_min then q.wind_direction else ps.wind_dir_min
    wind_dir_max := if q.wind_direction > ps.wind_dir_max then q.wind_direction else ps.wind_dir_max
    precip_min := if q.precipitation < ps.precip_min then q.precipitation else ps.precip_min
    precip_max := if q.precipitation > ps.precip_max then q.precipitation else ps.precip_max }

/-- Initial bounds of `calculate_normalization_params`
(`weather_data.c:169`): min and max both equal to the first point. -/
def normInit (p : WeatherPoint) : NormalizationParams :=
  { temp_min := p.temperature, temp_max := p.temperature
    pressure_min := p.pressure, pressure_max := p.pressure
    humidity_min := p.humidity, humidity_max := p.humidity
    wind_speed_min := p.wind_speed, wind_speed_max := p.wind_speed
    wind_dir_min := p.wind_direction, wind_dir_max := p.wind_direction
    precip_min := p.precipitation, precip_max := p.precipitation }

/-- Model of `calculate_normalization_params` (`weather_data.c:162`): a C
`WeatherDataset` is modelled as the list of its `size` points; the
function fails (NULL) on an empty dataset, otherwise folds the min/max
update over the remaining points starting from the first. -/
noncomputable def calculate_normalization_params : List WeatherPoint → Option NormalizationParams
  | [] => none
  | p :: rest => some (rest.foldl normExtend (normInit p))

/-- Loop body of `normalize_dataset` (`weather_data.c:207`): map each
feature into `[0,1]` by `(x - min) / range`, or to `0.5` when the
feature's range is not positive. -/
noncomputable def normalize_point (p : WeatherPoint) (params : NormalizationParams) :
    WeatherPoint :=
  { temperature :=
      if params.temp_max - params.temp_min > 0 then
        (p.temperature - params.temp_min) / (params.temp_max - params.temp_min)
      else 0.5
    pressure :=
      if params.pressure_max - params.pressure_min > 0 then
        (p.pressure - params.pressure_min) / (params.pressure_max - params.pressure_min)
      else 0.5
    humidity :=
      if params.humidity_max - params.humidity_min > 0 then
        (p.humidity - params.humidity_min) / (params.humidity_max - params.humidity_min)
      else 0.5
    wind_speed :=
      if params.wind_speed_max - params.wind_speed_min > 0 then
        (p.wind_speed - params.wind_speed_min) / (params.wind_speed_max - params.wind_speed_min)
      else 0.5
    wind_direction :=
      if params.wind_dir_max - params.wind_dir_min > 0 then
        (p.wind_direction - params.wind_dir_min) / (params.wind_dir_max - params.wind_dir_min)
      else 0.5
    precipitation :=
      if params.precip_max - params.precip_min > 0 then
        (p.precipitation - params.precip_min) / (params.precip_max - params.precip_min)
      else 0.5 }

/-- Model of `normalize_dataset` (`weather_data.c:204`): apply the loop
body to every point of the dataset, in place. -/
noncomputable def normalize_dataset (ds : List WeatherPoint) (params : NormalizationParams) :
    List WeatherPoint :=
  ds.map (normalize_point · params)

/-- Model of `denormalize_point` (`weather_data.c:228`): map each feature
back by `x * range + min`, or to the shared `min` when the feature's
range is not positive. -/
noncomputable def denormalize_point (p : WeatherPoint) (params : NormalizationParams) : WeatherPoint :=
  { temperature :=
      if params.temp_max - params.temp_min > 0 then
        p.temperature * (params.temp_max - params.temp_min) + params.temp_min
      else params.temp_min
    pressure :=
      if params.pressure_max - params.pressure_min > 0 then
        p.pressure * (params.pressure_max - params.pressure_min) + params.pressure_min
      else params.pressure_min
    humidity :=
      if params.humidity_max - params.humidity_min > 0 then
        p.humidity * (params.humidity_max - params.humidity_min) + params.humidity_min
      else params.humidity_min
    wind_speed :=
      if params.wind_speed_max - params.wind_speed_min > 0 then
        p.wind_speed * (params.wind_speed_max - params.wind_speed_min) + params.wind_speed_min
      else params.wind_speed_min
    wind_direction :=
      if params.wind_dir_max - params.wind_dir_min > 0 then
        p.wind_direction * (params.wind_dir_max - params.wind_dir_min) + params.wind_dir_min
      else params.wind_dir_min
    precipitation :=
      if params.precip_max - params.precip_min > 0 then
        p.precipitation * (params.precip_max - params.precip_min) + params.precip_min
      else params.precip_min }

/-- Model of `weather_point_to_matrix` (`weather_data.c:247`): a fresh
`6 × 1` column matrix holding the six features in order. -/
def weather_point_to_matrix (p : WeatherPoint) : CMatrix :=
  { rows := 6, cols := 1,
    data := [[p.temperature], [p.pressure], [p.humidity],
             [p.wind_speed], [p.wind_direction], [p.precipitation]] }

/-- Model of `matrix_to_weather_point` (`weather_data.c:264`): reads the
six features back out of a `6 × 1` matrix; returns the zero-initialized
point when the shape is wrong. -/
def matrix_to_weather_point (m : CMatrix) : WeatherPoint :=
  if m.rows = 6 ∧ m.cols = 1 then
    { temperature := m.entry 0 0, pressure := m.entry 1 0, humidity := m.entry 2 0,
      wind_speed := m.entry 3 0, wind_direction := m.entry 4 0,
      precipitation := m.entry 5 0 }
  else zeroWeatherPoint

/-- Model of the C `LSTMNetwork` struct from `lstm.h`.  The C `int`
dimension and sequence-length fields only ever hold the non-negative
values the constructors and the loader store into them, so they are
modelled as `Nat`. -/
structure LSTMNetwork where
  lstm_layer : LSTMCell
  W_output : CMatrix
  b_output : CMatrix
  input_size : Nat
  hidden_size : Nat
  output_size : Nat
  learning_rate : ℝ
  sequence_length : Nat
  norm_params : Option NormalizationParams

/-- Structural invariant established by `lstm_network_create`: the cell
is well-formed with the network's dimensions, and the output layer has
shape `(output_size, hidden_size)` with bias `(output_size, 1)`. -/
def NetWF (n : LSTMNetwork) : Prop :=
  CellWF n.lstm_layer ∧ n.lstm_layer.input_size = n.input_size ∧
  n.lstm_layer.hidden_size = n.hidden_size ∧
  n.W_output.Shaped n.output_size n.hidden_size ∧ n.b_output.Shaped n.output_size 1

instance (n : LSTMNetwork) : Decidable (NetWF n) := by
  unfold NetWF; infer_instance

/-- Model of `lstm_network_create` (`lstm.c:188`): a fresh cell, a random
output projection (continuing the same random oracle after the cell's
eight weight matrices), a zero output bias, and the default
hyperparameters `learning_rate = 0.001`, `sequence_length = 10`, no
normalization parameters. -/
noncomputable def lstm_network_create (rand : Nat → ℝ)
    (input_size hidden_size output_size : Nat) : LSTMNetwork :=
  { lstm_layer := lstm_cell_create rand input_size hidden_size
    W_output := initialize_weights rand
      (4 * (hidden_size * input_size) + 4 * (hidden_size * hidden_size))
      (mkMatrix output_size hidden_size) 1
    b_output := mkMatrix output_size 1
    input_size := input_size
    hidden_size := hidden_size
    output_size := output_size
    learning_rate := 0.001
    sequence_length := 10
    norm_params := none }

/-- Model of `lstm_network_reset` (`lstm.c:239`). -/
def lstm_network_reset (net : LSTMNetwork) : LSTMNetwork :=
  { net with lstm_layer := lstm_cell_reset_state net.lstm_layer }

/-- Timestep loop of `lstm_network_predict` (`lstm.c:253`).  The C
`Matrix** sequence, int seq_length` pair is modelled as the list of the
`seq_length` timestep matrices; each is fed through the cell in order,
every hidden output but the last being freed, so the accumulator keeps
only the latest hidden output (starting from the NULL `hidden_output`)
and the mutated cell. -/
noncomputable def predictFold (c : LSTMCell) (s : List CMatrix) :
    Option CMatrix × LSTMCell :=
  s.foldl
    (fun (acc : Option CMatrix × LSTMCell) x =>
      let r := lstm_cell_forward acc.2 x
      (some r.1, r.2))
    (none, c)

/-- Model of `lstm_network_predict` (`lstm.c:246`) proper: reset the
cell, run the timestep loop, and project the surviving hidden output
(if any — an empty sequence leaves it NULL and the result is NULL)
through `W_output` and `b_output`.  The pair returned is the mutated
network together with the possibly-NULL result matrix. -/
noncomputable def lstm_network_predict (net : LSTMNetwork) (s : List CMatrix) :
    LSTMNetwork × Option CMatrix :=
  let folded := predictFold (lstm_network_reset net).lstm_layer s
  ({ lstm_network_reset net with lstm_layer := folded.2 },
    match folded.1 with
    | none => none
    | some h => oadd (omul (some net.W_output) (some h)) (some net.b_output))

/-- Model of the C `TrainingData` struct from `lstm.h`: the input windows
(each a list of `sequence_length` column matrices), the targets, and the
two count fields. -/
structure TrainingData where
  inputs : List (List CMatrix)
  targets : List CMatrix
  num_sequences : Nat
  sequence_length : Nat

/-- Model of `create_training_data` (`lstm.c:273`).  Fails (NULL) when
`sequence_length <= 0` or `dataset->size <= sequence_length`; otherwise
builds `size - sequence_length` windows, window `i` holding fresh
matrices converted from `dataset->data[i+t]` for `t` below
`sequence_length`, with target converted from
`dataset->data[i+sequence_length]`. -/
def create_training_data (dataset : List WeatherPoint) (sequence_length : Nat) :
    Option TrainingData :=
  if sequence_length ≤ 0 ∨ dataset.length ≤ sequence_length then none
  else
    let n := dataset.length - sequence_length
    some
      { inputs := (List.range n).map fun i =>
          (List.range sequence_length).map fun t =>
            weather_point_to_matrix (dataset.getD (i + t) zeroWeatherPoint)
        targets := (List.range n).map fun i =>
          weather_point_to_matrix (dataset.getD (i + sequence_length) zeroWeatherPoint)
        num_sequences := n
        sequence_length := sequence_length }

/-- Model of `calculate_loss` (`lstm.c:341`): mean squared error, with the
sentinel `-1.0` on NULL or shape mismatch (modelled for completeness; the
training loop only prints it). -/
noncomputable def calculate_loss (predicted target : CMatrix) : ℝ :=
  if predicted.rows = target.rows ∧ predicted.cols = target.cols then
    sumR predicted.rows
      (fun i => sumR predicted.cols
        (fun j => (predicted.entry i j - target.entry i j) ^ 2)) /
      (predicted.rows * predicted.cols)
  else -1

/-- One iteration of the inner training loop of `lstm_train`
(`lstm.c:368`): predict (mutating the cell state), and — unless the
prediction is NULL, in which case the loop `continue`s — update
`W_output` by copying `W_output + (learning_rate-scaled error) ·
hidden_stateᵀ` into it.  The loss computation at `lstm.c:374` only feeds
the `printf` progress report, so it does not appear in the state. -/
noncomputable def lstm_train_pair (net : LSTMNetwork) (input : List CMatrix)
    (target : CMatrix) : LSTMNetwork :=
  let r := lstm_network_predict net input
  match r.2 with
  | none => r.1
  | some prediction =>
    let error := Option.map (fun e => matrix_scale e r.1.learning_rate)
      (osub (some target) (some prediction))
    let weight_update := omul error (some (matrix_transpose r.1.lstm_layer.hidden_state))
    let new_weights := oadd (some r.1.W_output) weight_update
    { r.1 with W_output := matrix_copy_opt r.1.W_output new_weights }

/-- One epoch of `lstm_train`: the inner loop over
`seq` from `0` to `num_sequences - 1`, reading `inputs[seq]` and
`targets[seq]`.  On builder-produced data the two lists have exactly
`num_sequences` elements; the `getD` defaults stand for the
out-of-bounds reads the C code would make on inconsistent data. -/
noncomputable def lstm_train_epoch (net : LSTMNetwork) (data : TrainingData) : LSTMNetwork :=
  (List.range data.num_sequences).foldl
    (fun n seq =>
      lstm_train_pair n (data.inputs.getD seq []) (data.targets.getD seq (mkMatrix 0 0)))
    net

/-- Model of `lstm_train` (`lstm.c:360`): `epochs` epochs over the
training pairs; the epoch/loss reporting is pure output. -/
noncomputable def lstm_train (net : LSTMNetwork) (data : TrainingData) (epochs : Nat) :
    LSTMNetwork :=
  (List.range epochs).foldl (fun n _ => lstm_train_epoch n data) net

/-- Model of `lstm_predict_next` (`lstm.c:506`).  The result variable is
zero-initialized (`WeatherPoint result = {0}` at `lstm.c:507`) and is
returned unchanged when the dataset holds fewer than `seq_length` points
or when the prediction comes back NULL; otherwise the last `seq_length`
points are converted to matrices, fed to `lstm_network_predict`, and the
resulting matrix is converted back. -/
noncomputable def lstm_predict_next (net : LSTMNetwork) (recent : List WeatherPoint)
    (seq_length : Nat) : WeatherPoint :=
  if recent.length < seq_length then zeroWeatherPoint
  else
    let start := recent.length - seq_length
    let sequence := (List.range seq_length).map fun i =>
      weather_point_to_matrix (recent.getD (start + i) zeroWeatherPoint)
    match (lstm_network_predict net sequence).2 with
    | some prediction => matrix_to_weather_point prediction
    | none => zeroWeatherPoint

/-- One scalar record of the binary model file: the C code writes a
sequence of `int` and `double` values with `fwrite`; the file is
modelled as the list of those scalars in write order (an `fwrite` of `k`
doubles contributes `k` `ffloat` items, and the `NormalizationParams`
struct written in one `fwrite` contributes its twelve doubles in field
order). -/
inductive FileItem where
  | fint (n : Int)
  | ffloat (x : ℝ)

/-- The twelve doubles of a `NormalizationParams` struct, in field
order. -/
def normParamsItems (p : NormalizationParams) : List FileItem :=
  [FileItem.ffloat p.temp_min, FileItem.ffloat p.temp_max,
   FileItem.ffloat p.pressure_min, FileItem.ffloat p.pressure_max,
   FileItem.ffloat p.humidity_min, FileItem.ffloat p.humidity_max,
   FileItem.ffloat p.wind_speed_min, FileItem.ffloat p.wind_speed_max,
   FileItem.ffloat p.wind_dir_min, FileItem.ffloat p.wind_dir_max,
   FileItem.ffloat p.precip_min, FileItem.ffloat p.precip_max]

/-- Model of `save_lstm_model` (`lstm.c:405`), producing the file
contents: dimensions and hyperparameters, then `output_size` rows of
`hidden_size` doubles of `W_output`, then the `output_size` doubles of
`b_output`, then the `has_norm` flag and, if set, the parameter
struct.  (`fopen` failure is the only failure path and is not
modelled.) -/
def save_lstm_model (net : LSTMNetwork) : List FileItem :=
  [FileItem.fint net.input_size, FileItem.fint net.hidden_size,
   FileItem.fint net.output_size, FileItem.ffloat net.learning_rate,
   FileItem.fint net.sequence_length] ++
  ((List.range net.output_size).flatMap fun i =>
    (List.range net.hidden_size).map fun j => FileItem.ffloat (net.W_output.entry i j)) ++
  ((List.range net.output_size).map fun i => FileItem.ffloat (net.b_output.entry i 0)) ++
  (match net.norm_params with
   | some p => FileItem.fint 1 :: normParamsItems p
   | none => [FileItem.fint 0])

/-- Reading `n` doubles from the file (an `fread` of `n` doubles), the
short-read/garbage case giving `none`. -/
def readFloats : Nat → List FileItem → Option (List ℝ × List FileItem)
  | 0, l => some ([], l)
  | n + 1, FileItem.ffloat x :: l =>
    (readFloats n l).map fun p => (x :: p.1, p.2)
  | _ + 1, _ => none

/-- Reading `r` consecutive rows of `w` doubles each (the `W_output`
read loop of `load_lstm_model`). -/
def readRows : Nat → Nat → List FileItem → Option (List (List ℝ) × List FileItem)
  | 0, _, l => some ([], l)
  | r + 1, w, l =>
    (readFloats w l).bind fun p =>
      (readRows r w p.2).map fun q => (p.1 :: q.1, q.2)

/-- Reading one `NormalizationParams` struct (a single `fread` of the
twelve-double struct). -/
def readNormParams : List FileItem → Option (NormalizationParams × List FileItem)
  | FileItem.ffloat a1 :: FileItem.ffloat a2 :: FileItem.ffloat a3 :: FileItem.ffloat a4 ::
    FileItem.ffloat a5 :: FileItem.ffloat a6 :: FileItem.ffloat a7 :: FileItem.ffloat a8 ::
    FileItem.ffloat a9 :: FileItem.ffloat a10 :: FileItem.ffloat a11 :: FileItem.ffloat a12 ::
    rest => some (⟨a1, a2, a3, a4, a5, a6, a7, a8, a9, a10, a11, a12⟩, rest)
  | _ => none

/-- Model of `load_lstm_model` (`lstm.c:440`): read the five header
scalars (failing on a short read), create a fresh network — whose cell
weights therefore come from the random oracle, not the file — overwrite
`learning_rate` and `sequence_length`, read `W_output` row by row and
`b_output` entry by entry (failing on short reads), then read the
`has_norm` flag; a missing flag leaves the parameters absent (the C code
skips the branch when that `fread` fails), a nonzero flag requires the
parameter struct.  The `Int`-valued header fields are stored into the
`Nat` dimension fields via `Int.toNat` (they are non-negative in every
file the saver writes). -/
noncomputable def load_lstm_model (rand : Nat → ℝ) :
    List FileItem → Option LSTMNetwork
  | FileItem.fint isz :: FileItem.fint hsz :: FileItem.fint osz ::
    FileItem.ffloat lr :: FileItem.fint sl :: rest =>
    (readRows osz.toNat hsz.toNat rest).bind fun pw =>
      (readFloats osz.toNat pw.2).bind fun pb =>
        let net0 := lstm_network_create rand isz.toNat hsz.toNat osz.toNat
        let net3 := { net0 with
          learning_rate := lr
          sequence_length := sl.toNat
          W_output := { net0.W_output with data := pw.1 }
          b_output := { net0.b_output with data := pb.1.map fun x => [x] } }
        match pb.2 with
        | FileItem.fint flag :: rest3 =>
          if flag ≠ 0 then
            (readNormParams rest3).map fun pp => { net3 with norm_params := some pp.1 }
          else some net3
        | _ => some net3
  | _ => none

/-- Address space for the frame-effect claims: the live matrices, indexed
by allocation order; a `Matrix*` is an index into it, `heap[i]?` being
the dereference (`none` for a dangling/NULL pointer). -/
def MatrixHeap : Type := List CMatrix

/-- `matrix_multiply` viewed on the heap: dereference both operands,
compute the product, and append the freshly allocated result; the
operand cells are never written. -/
def matrix_multiply_heap (h : List CMatrix) (ia ib : Nat) :
    Option (List CMatrix × Nat) :=
  match h[ia]?, h[ib]? with
  | some a, some b =>
    match matrix_multiply a b with
    | some r => some (h ++ [r], h.length)
    | none => none
  | _, _ => none

/-- `matrix_add` viewed on the heap. -/
def matrix_add_heap (h : List CMatrix) (ia ib : Nat) :
    Option (List CMatrix × Nat) :=
  match h[ia]?, h[ib]? with
  | some a, some b =>
    match matrix_add a b with
    | some r => some (h ++ [r], h.length)
    | none => none
  | _, _ => none

/-- `matrix_subtract` viewed on the heap. -/
def matrix_subtract_heap (h : List CMatrix) (ia ib : Nat) :
    Option (List CMatrix × Nat) :=
  match h[ia]?, h[ib]? with
  | some a, some b =>
    match matrix_subtract a b with
    | some r => some (h ++ [r], h.length)
    | none => none
  | _, _ => none

/-- `matrix_transpose` viewed on the heap (it fails only on NULL). -/
def matrix_transpose_heap (h : List CMatrix) (ia : Nat) :
    Option (List CMatrix × Nat) :=
  match h[ia]? with
  | some a => some (h ++ [matrix_transpose a], h.length)
  | none => none

/-- The twelve weight matrices of a cell (four input-to-gate, four
recurrent, four biases), bundled for frame statements. -/
def cellWeights (c : LSTMCell) : List CMatrix :=
  [c.W_f, c.W_i, c.W_c, c.W_o, c.U_f, c.U_i, c.U_c, c.U_o, c.b_f, c.b_i, c.b_c, c.b_o]

/-- Cell obtained by feeding the timesteps of `s` through the cell in
order, keeping only the (mutated) cell — the sequence loop of
`lstm_network_predict` (`lstm.c:253`) seen on the cell state. -/
noncomputable def lstmFoldCell (c : LSTMCell) (s : List CMatrix) : LSTMCell :=
  s.foldl (fun c x => (lstm_cell_forward c x).2) c

/-- Empty `0 × 0` matrix fixture for concrete instantiations. -/
def mat00 : CMatrix :=
  { rows := 0, cols := 0, data := [] }

/-- Empty `0 × 1` column fixture for concrete instantiations. -/
def colZ : CMatrix :=
  { rows := 0, cols := 1, data := [] }

/-- Well-formed LSTM cell fixture with `input_size = hidden_size = 0`. -/
def cellZ : LSTMCell :=
  { input_size := 0, hidden_size := 0
    W_f := mat00, W_i := mat00, W_c := mat00, W_o := mat00
    U_f := mat00, U_i := mat00, U_c := mat00, U_o := mat00
    b_f := colZ, b_i := colZ, b_c := colZ, b_o := colZ
    cell_state := colZ, hidden_state := colZ
    forget_gate := colZ, input_gate := colZ, candidate_gate := colZ, output_gate := colZ }

/-- Well-formed network fixture with all dimensions `0`. -/
def netZ : LSTMNetwork :=
  { lstm_layer := cellZ, W_output := mat00, b_output := colZ
    input_size := 0, hidden_size := 0, output_size := 0
    learning_rate := 1, sequence_length := 1, norm_params := none }

/-- Well-formed cell fixture with `input_size = 6`, `hidden_size = 0`. -/
def cell6 : LSTMCell :=
  { input_size := 6, hidden_size := 0
    W_f := { rows := 0, cols := 6, data := [] }
    W_i := { rows := 0, cols := 6, data := [] }
    W_c := { rows := 0, cols := 6, data := [] }
    W_o := { rows := 0, cols := 6, data := [] }
    U_f := mat00, U_i := mat00, U_c := mat00, U_o := mat00
    b_f := colZ, b_i := colZ, b_c := colZ, b_o := colZ
    cell_state := colZ, hidden_state := colZ
    forget_gate := colZ, input_gate := colZ, candidate_gate := colZ, output_gate := colZ }

/-- Well-formed network fixture with `input_size = output_size = 6` and
`hidden_size = 0`, whose predictions are therefore identically zero. -/
def net6 : LSTMNetwork :=
  { lstm_layer := cell6
    W_output := { rows := 6, cols := 0, data := [[], [], [], [], [], []] }
    b_output := mkMatrix 6 1
    input_size := 6, hidden_size := 0, output_size := 6
    learning_rate := 1, sequence_length := 1, norm_params := none }

section BasicLemmas

lemma getD_eq_getElem {α : Type} (l : List α) (i : Nat) (d : α) (h : i < l.length) :
    l.getD i d = l[i] := by
  simp [List.getD_eq_getElem?_getD, List.getElem?_eq_getElem h]

lemma map_range_getD {α : Type} (l : List α) (n : Nat) (d : α) (h : l.length = n) :
    (List.range n).map (fun i => l.getD i d) = l := by
  induction l generalizing n with
  | nil => subst h; rfl
  | cons a t ih =>
    subst h
    simp only [List.length_cons]
    rw [List.range_succ_eq_map, List.map_cons, List.map_map]
    simp only [List.getD_cons_zero]
    congr 1
    exact ih t.length rfl

lemma ofFn_entry (r c : Nat) (f : Nat → Nat → ℝ) {i j : Nat} (hi : i < r) (hj : j < c) :
    (ofFn r c f).entry i j = f i j := by
  unfold ofFn CMatrix.entry
  have h1 : ((List.range r).map fun i => (List.range c).map fun j => f i j).getD i [] =
      (List.range c).map fun j => f i j := by
    rw [getD_eq_getElem _ _ _ (by simpa using hi)]
    simp
  rw [h1, getD_eq_getElem _ _ _ (by simpa using hj)]
  simp

lemma ofFn_rows (r c : Nat) (f : Nat → Nat → ℝ) : (ofFn r c f).rows = r := rfl

lemma ofFn_cols (r c : Nat) (f : Nat → Nat → ℝ) : (ofFn r c f).cols = c := rfl

lemma ofFn_shaped (r c : Nat) (f : Nat → Nat → ℝ) : (ofFn r c f).Shaped r c := by
  refine ⟨rfl, rfl, by simp [ofFn], ?_⟩
  intro row hrow
  simp only [ofFn, List.mem_map] at hrow
  obtain ⟨i, _, rfl⟩ := hrow
  simp [ofFn]

lemma mkMatrix_shaped (r c : Nat) : (mkMatrix r c).Shaped r c := by
  refine ⟨rfl, rfl, ?_, ?_⟩ <;> simp [mkMatrix, CMatrix.WF]

lemma mkMatrix_entry (r c : Nat) (i j : Nat) : (mkMatrix r c).entry i j = 0 := by
  unfold mkMatrix CMatrix.entry
  simp only [List.getD_eq_getElem?_getD, List.getElem?_replicate]
  by_cases hi : i < r <;> by_cases hj : j < c <;> simp [hi, hj]

lemma sumR_zero (f : Nat → ℝ) : sumR 0 f = 0 := rfl

lemma sumR_succ (n : Nat) (f : Nat → ℝ) : sumR (n + 1) f = sumR n f + f n := by
  unfold sumR
  rw [List.range_succ, List.foldl_append]
  rfl

lemma sumR_one (f : Nat → ℝ) : sumR 1 f = f 0 := by
  rw [show (1 : Nat) = 0 + 1 from rfl, sumR_succ, sumR_zero, zero_add]

lemma matrix_multiply_eq (a b : CMatrix) (h : a.cols = b.rows) :
    matrix_multiply a b =
      some (ofFn a.rows b.cols fun i j => sumR a.cols fun k => a.entry i k * b.entry k j) := by
  simp [matrix_multiply, h]

lemma matrix_add_eq (a b : CMatrix) (h1 : a.rows = b.rows) (h2 : a.cols = b.cols) :
    matrix_add a b = some (ofFn a.rows a.cols fun i j => a.entry i j + b.entry i j) := by
  simp [matrix_add, h1, h2]

lemma matrix_subtract_eq (a b : CMatrix) (h1 : a.rows = b.rows) (h2 : a.cols = b.cols) :
    matrix_subtract a b = some (ofFn a.rows a.cols fun i j => a.entry i j - b.entry i j) := by
  simp [matrix_subtract, h1, h2]

lemma matrix_copy_eq (dest src : CMatrix) (h1 : dest.rows = src.rows) (h2 : dest.cols = src.cols) :
    matrix_copy dest src = { dest with data := src.data } := by
  simp [matrix_copy, h1, h2]

lemma mapmap_entry (m : CMatrix) (g : ℝ → ℝ) (hwf : m.WF) {i j : Nat}
    (hi : i < m.rows) (hj : j < m.cols) :
    (CMatrix.mk m.rows m.cols (m.data.map fun r => r.map g)).entry i j = g (m.entry i j) := by
  unfold CMatrix.entry
  obtain ⟨hlen, hrow⟩ := hwf
  have hi' : i < m.data.length := by rw [hlen]; exact hi
  have h1 : (m.data.map fun r => r.map g).getD i [] = (m.data[i]).map g := by
    rw [getD_eq_getElem _ _ _ (by simpa using hi')]
    simp
  have hj' : j < (m.data[i]).length := by
    rw [hrow _ (List.getElem_mem hi')]; exact hj
  rw [h1, getD_eq_getElem _ _ _ (by simpa using hj'),
    getD_eq_getElem _ _ _ hi', getD_eq_getElem _ _ _ hj']
  simp

lemma mapmap_wf (m : CMatrix) (g : ℝ → ℝ) (hwf : m.WF) :
    (CMatrix.mk m.rows m.cols (m.data.map fun r => r.map g)).WF := by
  obtain ⟨hlen, hrow⟩ := hwf
  constructor
  · simpa using hlen
  · intro r hr
    rw [List.mem_map] at hr
    obtain ⟨r0, hr0, rfl⟩ := hr
    simpa using hrow r0 hr0

lemma apply_sigmoid_entry (m : CMatrix) (hwf : m.WF) {i j : Nat}
    (hi : i < m.rows) (hj : j < m.cols) :
    (apply_sigmoid m).entry i j = sigmoid (m.entry i j) :=
  mapmap_entry m sigmoid hwf hi hj

lemma apply_tanh_entry (m : CMatrix) (hwf : m.WF) {i j : Nat}
    (hi : i < m.rows) (hj : j < m.cols) :
    (apply_tanh m).entry i j = tanh_activation (m.entry i j) :=
  mapmap_entry m tanh_activation hwf hi hj

lemma apply_sigmoid_shaped (m : CMatrix) {r c : Nat} (h : m.Shaped r c) :
    (apply_sigmoid m).Shaped r c := by
  obtain ⟨h1, h2, h3⟩ := h
  exact ⟨h1, h2, by subst h1 h2; exact mapmap_wf m sigmoid h3⟩

lemma apply_tanh_shaped (m : CMatrix) {r c : Nat} (h : m.Shaped r c) :
    (apply_tanh m).Shaped r c := by
  obtain ⟨h1, h2, h3⟩ := h
  exact ⟨h1, h2, by subst h1 h2; exact mapmap_wf m tanh_activation h3⟩

lemma matrix_zero_shaped (m : CMatrix) {r c : Nat} (h : m.Shaped r c) :
    (matrix_zero m).Shaped r c := by
  obtain ⟨h1, h2, h3⟩ := h
  exact ⟨h1, h2, by subst h1 h2; exact mapmap_wf m (fun _ => 0) h3⟩

lemma matrix_zero_entry (m : CMatrix) (hwf : m.WF) {i j : Nat}
    (hi : i < m.rows) (hj : j < m.cols) :
    (matrix_zero m).entry i j = 0 :=
  mapmap_entry m (fun _ => 0) hwf hi hj

lemma matrix_scale_entry (m : CMatrix) (s : ℝ) (hwf : m.WF) {i j : Nat}
    (hi : i < m.rows) (hj : j < m.cols) :
    (matrix_scale m s).entry i j = m.entry i j * s :=
  mapmap_entry m (· * s) hwf hi hj

lemma matrix_scale_shaped (m : CMatrix) (s : ℝ) {r c : Nat} (h : m.Shaped r c) :
    (matrix_scale m s).Shaped r c := by
  obtain ⟨h1, h2, h3⟩ := h
  exact ⟨h1, h2, by subst h1 h2; exact mapmap_wf m (· * s) h3⟩

lemma matrix_transpose_entry (m : CMatrix) {i j : Nat} (hi : i < m.cols) (hj : j < m.rows) :
    (matrix_transpose m).entry i j = m.entry j i :=
  ofFn_entry _ _ _ hi hj

lemma matrix_transpose_shaped (m : CMatrix) {r c : Nat} (h : m.Shaped r c) :
    (matrix_transpose m).Shaped c r := by
  rw [← h.1, ← h.2.1]
  exact ofFn_shaped _ _ _

end BasicLemmas

section LoopLemmas

lemma setEntry_rows (m : CMatrix) (i j : Nat) (v : ℝ) : (m.setEntry i j v).rows = m.rows := rfl

lemma setEntry_cols (m : CMatrix) (i j : Nat) (v : ℝ) : (m.setEntry i j v).cols = m.cols := rfl

lemma setEntry_wf (m : CMatrix) (i j : Nat) (v : ℝ) (h : m.WF) : (m.setEntry i j v).WF := by
  obtain ⟨hlen, hrow⟩ := h
  refine ⟨by simpa [CMatrix.setEntry] using hlen, ?_⟩
  intro r hr
  rcases lt_or_le i m.data.length with hi | hi
  · rcases List.mem_or_eq_of_mem_set hr with hmem | rfl
    · exact hrow r hmem
    · rw [List.length_set, getD_eq_getElem _ _ _ hi]
      exact hrow _ (List.getElem_mem hi)
  · rw [CMatrix.setEntry] at hr
    simp only [List.set_eq_of_length_le hi] at hr
    exact hrow r hr

lemma setEntry_shaped (m : CMatrix) (i j : Nat) (v : ℝ) {r c : Nat} (h : m.Shaped r c) :
    (m.setEntry i j v).Shaped r c :=
  ⟨h.1, h.2.1, setEntry_wf m i j v h.2.2⟩

lemma setEntry_entry_eq (m : CMatrix) (i j : Nat) (v : ℝ) (h : m.WF)
    (hi : i < m.rows) (hj : j < m.cols) : (m.setEntry i j v).entry i j = v := by
  obtain ⟨hlen, hrow⟩ := h
  have hi' : i < m.data.length := by rw [hlen]; exact hi
  unfold CMatrix.setEntry CMatrix.entry
  have h1 : (m.data.set i ((m.data.getD i []).set j v)).getD i [] =
      (m.data.getD i []).set j v := by
    rw [List.getD_eq_getElem?_getD, List.getElem?_set_self', List.getElem?_eq_getElem hi']
    rfl
  have hj' : j < ((m.data.getD i []).set j v).length := by
    rw [List.length_set, getD_eq_getElem _ _ _ hi', hrow _ (List.getElem_mem hi')]
    exact hj
  rw [h1, getD_eq_getElem _ _ _ hj']
  exact List.getElem_set_self hj'

lemma setEntry_entry_row_ne (m : CMatrix) (i j : Nat) (v : ℝ) (i' j' : Nat) (h : i' ≠ i) :
    (m.setEntry i j v).entry i' j' = m.entry i' j' := by
  show ((m.data.set i ((m.data.getD i []).set j v)).getD i' []).getD j' 0 =
    (m.data.getD i' []).getD j' 0
  have h2 : (m.data.set i ((m.data.getD i []).set j v)).getD i' [] = m.data.getD i' [] := by
    rw [List.getD_eq_getElem?_getD, List.getElem?_set_ne (by omega : i ≠ i'),
      ← List.getD_eq_getElem?_getD]
  rw [h2]

lemma cellStateLoop_succ (fg ig cg : CMatrix) (n : Nat) (cs : CMatrix) :
    cellStateLoop fg ig cg (n + 1) cs =
      (cellStateLoop fg ig cg n cs).setEntry n 0
        (fg.entry n 0 * (cellStateLoop fg ig cg n cs).entry n 0 +
          ig.entry n 0 * cg.entry n 0) := by
  unfold cellStateLoop
  rw [List.range_succ, List.foldl_append]
  rfl

lemma cellStateLoop_shaped (fg ig cg : CMatrix) (n : Nat) (cs : CMatrix) {r c : Nat}
    (h : cs.Shaped r c) : (cellStateLoop fg ig cg n cs).Shaped r c := by
  induction n with
  | zero => exact h
  | succ n ih => rw [cellStateLoop_succ]; exact setEntry_shaped _ _ _ _ ih

lemma cellStateLoop_entry_ge (fg ig cg : CMatrix) (n : Nat) (cs : CMatrix) {i : Nat}
    (h : n ≤ i) : (cellStateLoop fg ig cg n cs).entry i 0 = cs.entry i 0 := by
  induction n with
  | zero => rfl
  | succ n ih =>
    rw [cellStateLoop_succ, setEntry_entry_row_ne _ _ _ _ _ _ (by omega)]
    exact ih (by omega)

lemma cellStateLoop_entry_lt (fg ig cg : CMatrix) (n : Nat) (cs : CMatrix) {r : Nat}
    (hs : cs.Shaped r 1) (hn : n ≤ r) {i : Nat} (hi : i < n) :
    (cellStateLoop fg ig cg n cs).entry i 0 =
      fg.entry i 0 * cs.entry i 0 + ig.entry i 0 * cg.entry i 0 := by
  induction n with
  | zero => omega
  | succ n ih =>
    rw [cellStateLoop_succ]
    rcases Nat.lt_or_ge i n with h | h
    · rw [setEntry_entry_row_ne _ _ _ _ _ _ (by omega)]
      exact ih (by omega) h
    · have hin : i = n := by omega
      subst hin
      have hsh := cellStateLoop_shaped fg ig cg i cs hs
      rw [setEntry_entry_eq _ _ _ _ hsh.2.2 (by rw [hsh.1]; omega) (by rw [hsh.2.1]; omega)]
      rw [cellStateLoop_entry_ge fg ig cg i cs le_rfl]

lemma hiddenStateLoop_succ (og ct : CMatrix) (n : Nat) (hs : CMatrix) :
    hiddenStateLoop og ct (n + 1) hs =
      (hiddenStateLoop og ct n hs).setEntry n 0 (og.entry n 0 * ct.entry n 0) := by
  unfold hiddenStateLoop
  rw [List.range_succ, List.foldl_append]
  rfl

lemma hiddenStateLoop_shaped (og ct : CMatrix) (n : Nat) (hs : CMatrix) {r c : Nat}
    (h : hs.Shaped r c) : (hiddenStateLoop og ct n hs).Shaped r c := by
  induction n with
  | zero => exact h
  | succ n ih => rw [hiddenStateLoop_succ]; exact setEntry_shaped _ _ _ _ ih

lemma hiddenStateLoop_entry_lt (og ct : CMatrix) (n : Nat) (hs : CMatrix) {r : Nat}
    (h : hs.Shaped r 1) (hn : n ≤ r) {i : Nat} (hi : i < n) :
    (hiddenStateLoop og ct n hs).entry i 0 = og.entry i 0 * ct.entry i 0 := by
  induction n with
  | zero => omega
  | succ n ih =>
    rw [hiddenStateLoop_succ]
    rcases Nat.lt_or_ge i n with h' | h'
    · rw [setEntry_entry_row_ne _ _ _ _ _ _ (by omega)]
      exact ih (by omega) h'
    · have hin : i = n := by omega
      subst hin
      have hsh := hiddenStateLoop_shaped og ct i hs h
      exact setEntry_entry_eq _ _ _ _ hsh.2.2 (by rw [hsh.1]; omega) (by rw [hsh.2.1]; omega)

end LoopLemmas

section ForwardLemmas

lemma entry_congr_data (m m' : CMatrix) (h : m.data = m'.data) (i j : Nat) :
    m.entry i j = m'.entry i j := by
  simp [CMatrix.entry, h]

lemma gatePre_spec (cell : LSTMCell) (W U b input : CMatrix)
    (hW : W.Shaped cell.hidden_size cell.input_size)
    (hU : U.Shaped cell.hidden_size cell.hidden_size)
    (hb : b.Shaped cell.hidden_size 1)
    (hhs : cell.hidden_state.Shaped cell.hidden_size 1)
    (hin : input.Shaped cell.input_size 1) :
    ∃ P, gatePre cell W U b input = some P ∧ P.Shaped cell.hidden_size 1 ∧
      ∀ i < cell.hidden_size, P.entry i 0 = preActivation cell W U b input i := by
  obtain ⟨hWr, hWc, hWwf⟩ := hW
  obtain ⟨hUr, hUc, hUwf⟩ := hU
  obtain ⟨hbr, hbc, _⟩ := hb
  obtain ⟨hhr, hhc, _⟩ := hhs
  obtain ⟨hir, hic, _⟩ := hin
  have h1 := matrix_multiply_eq W input (by rw [hWc, hir])
  have h2 := matrix_multiply_eq U cell.hidden_state (by rw [hUc, hhr])
  have h3 := matrix_add_eq
    (ofFn W.rows input.cols fun i j => sumR W.cols fun k => W.entry i k * input.entry k j)
    (ofFn U.rows cell.hidden_state.cols fun i j =>
      sumR U.cols fun k => U.entry i k * cell.hidden_state.entry k j)
    (by rw [ofFn_rows, ofFn_rows, hWr, hUr]) (by rw [ofFn_cols, ofFn_cols, hic, hhc])
  set M3 := ofFn (ofFn W.rows input.cols fun i j =>
      sumR W.cols fun k => W.entry i k * input.entry k j).rows
    (ofFn W.rows input.cols fun i j => sumR W.cols fun k => W.entry i k * input.entry k j).cols
    fun i j =>
      (ofFn W.rows input.cols fun i j =>
        sumR W.cols fun k => W.entry i k * input.entry k j).entry i j +
      (ofFn U.rows cell.hidden_state.cols fun i j =>
        sumR U.cols fun k => U.entry i k * cell.hidden_state.entry k j).entry i j
    with hM3def
  have hM3r : M3.rows = cell.hidden_size := by rw [hM3def, ofFn_rows, ofFn_rows, hWr]
  have hM3c : M3.cols = 1 := by rw [hM3def, ofFn_cols, ofFn_cols, hic]
  have h4 := matrix_add_eq M3 b (by rw [hM3r, hbr]) (by rw [hM3c, hbc])
  refine ⟨ofFn M3.rows M3.cols fun i j => M3.entry i j + b.entry i j, ?_, ?_, ?_⟩
  · simp only [gatePre, omul, oadd]
    rw [h1, h2]
    simp only [oadd]
    rw [h3]
    simp only [oadd, ← hM3def]
    exact h4
  · rw [hM3r, hM3c]
    exact ofFn_shaped _ _ _
  · intro i hi
    rw [ofFn_entry _ _ _ (by rw [hM3r]; exact hi) (by rw [hM3c]; omega)]
    rw [hM3def, ofFn_entry _ _ _ (by rw [ofFn_rows, hWr]; exact hi) (by rw [ofFn_cols, hic]; omega)]
    rw [ofFn_entry _ _ _ (by rw [hWr]; exact hi) (by rw [hic]; omega)]
    rw [ofFn_entry _ _ _ (by rw [hUr]; exact hi) (by rw [hhc]; omega)]
    rw [preActivation, hWc, hUc]

lemma gateValue_spec (cell : LSTMCell) (W U b input gate : CMatrix)
    (hW : W.Shaped cell.hidden_size cell.input_size)
    (hU : U.Shaped cell.hidden_size cell.hidden_size)
    (hb : b.Shaped cell.hidden_size 1)
    (hgate : gate.Shaped cell.hidden_size 1)
    (hhs : cell.hidden_state.Shaped cell.hidden_size 1)
    (hin : input.Shaped cell.input_size 1) :
    (matrix_copy_opt gate (gatePre cell W U b input)).Shaped cell.hidden_size 1 ∧
      ∀ i < cell.hidden_size,
        (matrix_copy_opt gate (gatePre cell W U b input)).entry i 0 =
          preActivation cell W U b input i := by
  obtain ⟨P, hPeq, hPsh, hPentry⟩ := gatePre_spec cell W U b input hW hU hb hhs hin
  rw [hPeq]
  simp only [matrix_copy_opt]
  rw [matrix_copy_eq gate P (by rw [hgate.1, hPsh.1]) (by rw [hgate.2.1, hPsh.2.1])]
  constructor
  · refine ⟨hgate.1, hgate.2.1, ?_, ?_⟩
    · show P.data.length = gate.rows
      rw [hPsh.2.2.1, hPsh.1, hgate.1]
    · intro r hr
      show r.length = gate.cols
      rw [hPsh.2.2.2 r hr, hPsh.2.1, hgate.2.1]
  · intro i hi
    exact (entry_congr_data _ P rfl i 0).trans (hPentry i hi)

lemma forgetGateOf_spec (cell : LSTMCell) (input : CMatrix) (hc : CellWF cell)
    (hin : input.Shaped cell.input_size 1) :
    (forgetGateOf cell input).Shaped cell.hidden_size 1 ∧
      ∀ i < cell.hidden_size, (forgetGateOf cell input).entry i 0 =
        sigmoid (preActivation cell cell.W_f cell.U_f cell.b_f input i) := by
  obtain ⟨h1, h2, h3, h4, h5, h6, h7, h8, h9, h10, h11, h12, h13, h14, h15, h16, h17, h18⟩ := hc
  obtain ⟨hsh, hent⟩ := gateValue_spec cell cell.W_f cell.U_f cell.b_f input
    cell.forget_gate h1 h5 h9 h15 h14 hin
  refine ⟨apply_sigmoid_shaped _ hsh, ?_⟩
  intro i hi
  show (apply_sigmoid (matrix_copy_opt cell.forget_gate
    (gatePre cell cell.W_f cell.U_f cell.b_f input))).entry i 0 = _
  rw [apply_sigmoid_entry _ hsh.2.2 (by rw [hsh.1]; exact hi) (by rw [hsh.2.1]; omega),
    hent i hi]

lemma inputGateOf_spec (cell : LSTMCell) (input : CMatrix) (hc : CellWF cell)
    (hin : input.Shaped cell.input_size 1) :
    (inputGateOf cell input).Shaped cell.hidden_size 1 ∧
      ∀ i < cell.hidden_size, (inputGateOf cell input).entry i 0 =
        sigmoid (preActivation cell cell.W_i cell.U_i cell.b_i input i) := by
  obtain ⟨h1, h2, h3, h4, h5, h6, h7, h8, h9, h10, h11, h12, h13, h14, h15, h16, h17, h18⟩ := hc
  obtain ⟨hsh, hent⟩ := gateValue_spec cell cell.W_i cell.U_i cell.b_i input
    cell.input_gate h2 h6 h10 h16 h14 hin
  refine ⟨apply_sigmoid_shaped _ hsh, ?_⟩
  intro i hi
  show (apply_sigmoid (matrix_copy_opt cell.input_gate
    (gatePre cell cell.W_i cell.U_i cell.b_i input))).entry i 0 = _
  rw [apply_sigmoid_entry _ hsh.2.2 (by rw [hsh.1]; exact hi) (by rw [hsh.2.1]; omega),
    hent i hi]

lemma candidateGateOf_spec (cell : LSTMCell) (input : CMatrix) (hc : CellWF cell)
    (hin : input.Shaped cell.input_size 1) :
    (candidateGateOf cell input).Shaped cell.hidden_size 1 ∧
      ∀ i < cell.hidden_size, (candidateGateOf cell input).entry i 0 =
        tanh_activation (preActivation cell cell.W_c cell.U_c cell.b_c input i) := by
  obtain ⟨h1, h2, h3, h4, h5, h6, h7, h8, h9, h10, h11, h12, h13, h14, h15, h16, h17, h18⟩ := hc
  obtain ⟨hsh, hent⟩ := gateValue_spec cell cell.W_c cell.U_c cell.b_c input
    cell.candidate_gate h3 h7 h11 h17 h14 hin
  refine ⟨apply_tanh_shaped _ hsh, ?_⟩
  intro i hi
  show (apply_tanh (matrix_copy_opt cell.candidate_gate
    (gatePre cell cell.W_c cell.U_c cell.b_c input))).entry i 0 = _
  rw [apply_tanh_entry _ hsh.2.2 (by rw [hsh.1]; exact hi) (by rw [hsh.2.1]; omega),
    hent i hi]

lemma outputGateOf_spec (cell : LSTMCell) (input : CMatrix) (hc : CellWF cell)
    (hin : input.Shaped cell.input_size 1) :
    (outputGateOf cell input).Shaped cell.hidden_size 1 ∧
      ∀ i < cell.hidden_size, (outputGateOf cell input).entry i 0 =
        sigmoid (preActivation cell cell.W_o cell.U_o cell.b_o input i) := by
  obtain ⟨h1, h2, h3, h4, h5, h6, h7, h8, h9, h10, h11, h12, h13, h14, h15, h16, h17, h18⟩ := hc
  obtain ⟨hsh, hent⟩ := gateValue_spec cell cell.W_o cell.U_o cell.b_o input
    cell.output_gate h4 h8 h12 h18 h14 hin
  refine ⟨apply_sigmoid_shaped _ hsh, ?_⟩
  intro i hi
  show (apply_sigmoid (matrix_copy_opt cell.output_gate
    (gatePre cell cell.W_o cell.U_o cell.b_o input))).entry i 0 = _
  rw [apply_sigmoid_entry _ hsh.2.2 (by rw [hsh.1]; exact hi) (by rw [hsh.2.1]; omega),
    hent i hi]

lemma cellStateOf_spec (cell : LSTMCell) (input : CMatrix) (hc : CellWF cell) :
    (cellStateOf cell input).Shaped cell.hidden_size 1 ∧
      ∀ i < cell.hidden_size, (cellStateOf cell input).entry i 0 =
        (forgetGateOf cell input).entry i 0 * cell.cell_state.entry i 0 +
          (inputGateOf cell input).entry i 0 * (candidateGateOf cell input).entry i 0 := by
  have hcs : cell.cell_state.Shaped cell.hidden_size 1 := hc.2.2.2.2.2.2.2.2.2.2.2.2.1
  exact ⟨cellStateLoop_shaped _ _ _ _ _ hcs,
    fun i hi => cellStateLoop_entry_lt _ _ _ _ _ hcs le_rfl hi⟩

lemma cellTanhOf_spec (cell : LSTMCell) (input : CMatrix) (hc : CellWF cell) :
    (cellTanhOf cell input).Shaped cell.hidden_size 1 ∧
      ∀ i < cell.hidden_size, (cellTanhOf cell input).entry i 0 =
        tanh_activation ((cellStateOf cell input).entry i 0) := by
  obtain ⟨hcssh, _⟩ := cellStateOf_spec cell input hc
  have hcopy : matrix_copy (mkMatrix cell.hidden_size 1) (cellStateOf cell input) =
      { mkMatrix cell.hidden_size 1 with data := (cellStateOf cell input).data } :=
    matrix_copy_eq _ _ (by rw [hcssh.1]; rfl) (by rw [hcssh.2.1]; rfl)
  have hsh : ({ mkMatrix cell.hidden_size 1 with
      data := (cellStateOf cell input).data } : CMatrix).Shaped cell.hidden_size 1 := by
    refine ⟨rfl, rfl, ?_, ?_⟩
    · show (cellStateOf cell input).data.length = cell.hidden_size
      rw [hcssh.2.2.1, hcssh.1]
    · intro r hr
      show r.length = 1
      rw [hcssh.2.2.2 r hr, hcssh.2.1]
  constructor
  · show (apply_tanh (matrix_copy (mkMatrix cell.hidden_size 1) (cellStateOf cell input))).Shaped _ _
    rw [hcopy]
    exact apply_tanh_shaped _ hsh
  · intro i hi
    show (apply_tanh (matrix_copy (mkMatrix cell.hidden_size 1) (cellStateOf cell input))).entry i 0 = _
    rw [hcopy, apply_tanh_entry _ hsh.2.2 (by rw [hsh.1]; exact hi) (by rw [hsh.2.1]; omega)]
    exact congrArg tanh_activation (entry_congr_data _ (cellStateOf cell input) rfl i 0)

lemma hiddenStateOf_spec (cell : LSTMCell) (input : CMatrix) (hc : CellWF cell) :
    (hiddenStateOf cell input).Shaped cell.hidden_size 1 ∧
      ∀ i < cell.hidden_size, (hiddenStateOf cell input).entry i 0 =
        (outputGateOf cell input).entry i 0 * (cellTanhOf cell input).entry i 0 := by
  have hhs : cell.hidden_state.Shaped cell.hidden_size 1 := hc.2.2.2.2.2.2.2.2.2.2.2.2.2.1
  exact ⟨hiddenStateLoop_shaped _ _ _ _ hhs,
    fun i hi => hiddenStateLoop_entry_lt _ _ _ _ hhs le_rfl hi⟩

lemma lstm_cell_forward_fst_eq (cell : LSTMCell) (input : CMatrix) (hc : CellWF cell) :
    (lstm_cell_forward cell input).1 = (lstm_cell_forward cell input).2.hidden_state := by
  obtain ⟨hhssh, _⟩ := hiddenStateOf_spec cell input hc
  show matrix_copy (mkMatrix cell.hidden_size 1) (hiddenStateOf cell input) =
    hiddenStateOf cell input
  rw [matrix_copy_eq _ _ (by rw [hhssh.1]; rfl) (by rw [hhssh.2.1]; rfl)]
  exact CMatrix.ext hhssh.1.symm hhssh.2.1.symm rfl

lemma lstm_cell_forward_wf (cell : LSTMCell) (input : CMatrix) (hc : CellWF cell)
    (hin : input.Shaped cell.input_size 1) :
    CellWF (lstm_cell_forward cell input).2 := by
  obtain ⟨h1, h2, h3, h4, h5, h6, h7, h8, h9, h10, h11, h12, h13, h14, h15, h16, h17, h18⟩ :=
    id hc
  exact ⟨h1, h2, h3, h4, h5, h6, h7, h8, h9, h10, h11, h12,
    (cellStateOf_spec cell input hc).1,
    (hiddenStateOf_spec cell input hc).1,
    (forgetGateOf_spec cell input hc hin).1,
    (inputGateOf_spec cell input hc hin).1,
    (candidateGateOf_spec cell input hc hin).1,
    (outputGateOf_spec cell input hc hin).1⟩

lemma forward_snd_forget (cell : LSTMCell) (input : CMatrix) :
    (lstm_cell_forward cell input).2.forget_gate = forgetGateOf cell input := rfl

lemma forward_snd_input (cell : LSTMCell) (input : CMatrix) :
    (lstm_cell_forward cell input).2.input_gate = inputGateOf cell input := rfl

lemma forward_snd_candidate (cell : LSTMCell) (input : CMatrix) :
    (lstm_cell_forward cell input).2.candidate_gate = candidateGateOf cell input := rfl

lemma forward_snd_output (cell : LSTMCell) (input : CMatrix) :
    (lstm_cell_forward cell input).2.output_gate = outputGateOf cell input := rfl

lemma forward_snd_cell_state (cell : LSTMCell) (input : CMatrix) :
    (lstm_cell_forward cell input).2.cell_state = cellStateOf cell input := rfl

lemma forward_snd_hidden_state (cell : LSTMCell) (input : CMatrix) :
    (lstm_cell_forward cell input).2.hidden_state = hiddenStateOf cell input := rfl

end ForwardLemmas

section Claim1

/-- C1: for every LSTM cell and every `(input_size, 1)` input,
`lstm_cell_forward` computes each gate `g` as the activation of
`pre_g = W_g·input + U_g·(previous hidden state) + b_g` — `sigmoid` for
the forget/input/output gates, `tanh` for the candidate gate — then
updates `cell_state[i] = forget[i]*cell_state[i] +
input_gate[i]*candidate[i]` and `hidden_state[i] =
output_gate[i]*tanh(cell_state[i])` elementwise, and the returned matrix
is a (fresh) copy of the cell's new hidden state — equal to it as a
value, with the cell retaining its own `hidden_state` field. -/
theorem lstm_cell_forward_correct (cell : LSTMCell) (input : CMatrix)
    (hc : CellWF cell) (hin : input.Shaped cell.input_size 1) :
    (∀ i < cell.hidden_size,
      (lstm_cell_forward cell input).2.forget_gate.entry i 0 =
          sigmoid (preActivation cell cell.W_f cell.U_f cell.b_f input i) ∧
        (lstm_cell_forward cell input).2.input_gate.entry i 0 =
          sigmoid (preActivation cell cell.W_i cell.U_i cell.b_i input i) ∧
        (lstm_cell_forward cell input).2.candidate_gate.entry i 0 =
          tanh_activation (preActivation cell cell.W_c cell.U_c cell.b_c input i) ∧
        (lstm_cell_forward cell input).2.output_gate.entry i 0 =
          sigmoid (preActivation cell cell.W_o cell.U_o cell.b_o input i) ∧
        (lstm_cell_forward cell input).2.cell_state.entry i 0 =
          (lstm_cell_forward cell input).2.forget_gate.entry i 0 *
              cell.cell_state.entry i 0 +
            (lstm_cell_forward cell input).2.input_gate.entry i 0 *
              (lstm_cell_forward cell input).2.candidate_gate.entry i 0 ∧
        (lstm_cell_forward cell input).2.hidden_state.entry i 0 =
          (lstm_cell_forward cell input).2.output_gate.entry i 0 *
            tanh_activation ((lstm_cell_forward cell input).2.cell_state.entry i 0)) ∧
      (lstm_cell_forward cell input).1 = (lstm_cell_forward cell input).2.hidden_state ∧
      (lstm_cell_forward cell input).1.Shaped cell.hidden_size 1 := by
  refine ⟨?_, lstm_cell_forward_fst_eq cell input hc, ?_⟩
  · intro i hi
    simp only [forward_snd_forget, forward_snd_input, forward_snd_candidate,
      forward_snd_output, forward_snd_cell_state, forward_snd_hidden_state]
    refine ⟨(forgetGateOf_spec cell input hc hin).2 i hi,
      (inputGateOf_spec cell input hc hin).2 i hi,
      (candidateGateOf_spec cell input hc hin).2 i hi,
      (outputGateOf_spec cell input hc hin).2 i hi,
      (cellStateOf_spec cell input hc).2 i hi, ?_⟩
    rw [(hiddenStateOf_spec cell input hc).2 i hi, (cellTanhOf_spec cell input hc).2 i hi]
  · rw [lstm_cell_forward_fst_eq cell input hc, forward_snd_hidden_state]
    exact (hiddenStateOf_spec cell input hc).1

/-- Witness for C1 at the concrete zero-dimension cell and input. -/
theorem lstm_cell_forward_correct_witness :
    CellWF cellZ ∧ CMatrix.Shaped colZ cellZ.input_size 1 ∧
      (lstm_cell_forward cellZ colZ).1 = (lstm_cell_forward cellZ colZ).2.hidden_state :=
  ⟨by decide, by decide,
    (lstm_cell_forward_correct cellZ colZ (by decide) (by decide)).2.1⟩

end Claim1

section PredictLemmas

lemma lstm_cell_reset_state_wf (c : LSTMCell) (hc : CellWF c) :
    CellWF (lstm_cell_reset_state c) := by
  obtain ⟨h1, h2, h3, h4, h5, h6, h7, h8, h9, h10, h11, h12, h13, h14, h15, h16, h17, h18⟩ := hc
  exact ⟨h1, h2, h3, h4, h5, h6, h7, h8, h9, h10, h11, h12,
    matrix_zero_shaped _ h13, matrix_zero_shaped _ h14, h15, h16, h17, h18⟩

lemma lstmFoldCell_nil (c : LSTMCell) : lstmFoldCell c [] = c := rfl

lemma lstmFoldCell_cons (c : LSTMCell) (x : CMatrix) (t : List CMatrix) :
    lstmFoldCell c (x :: t) = lstmFoldCell (lstm_cell_forward c x).2 t := rfl

lemma lstmFoldCell_concat (c : LSTMCell) (l : List CMatrix) (x : CMatrix) :
    lstmFoldCell c (l ++ [x]) = (lstm_cell_forward (lstmFoldCell c l) x).2 := by
  unfold lstmFoldCell
  rw [List.foldl_append]
  rfl

lemma lstmFoldCell_input_size (c : LSTMCell) (s : List CMatrix) :
    (lstmFoldCell c s).input_size = c.input_size := by
  induction s generalizing c with
  | nil => rfl
  | cons x t ih => rw [lstmFoldCell_cons]; exact ih _

lemma lstmFoldCell_hidden_size (c : LSTMCell) (s : List CMatrix) :
    (lstmFoldCell c s).hidden_size = c.hidden_size := by
  induction s generalizing c with
  | nil => rfl
  | cons x t ih => rw [lstmFoldCell_cons]; exact ih _

lemma lstmFoldCell_wf (c : LSTMCell) (s : List CMatrix) (hc : CellWF c)
    (hs : ∀ m ∈ s, m.Shaped c.input_size 1) : CellWF (lstmFoldCell c s) := by
  induction s generalizing c with
  | nil => exact hc
  | cons x t ih =>
    rw [lstmFoldCell_cons]
    refine ih _ (lstm_cell_forward_wf c x hc (hs x (List.mem_cons_self x t))) ?_
    intro m hm
    exact hs m (List.mem_cons_of_mem _ hm)

lemma predictFoldAux_snd (s : List CMatrix) (c : LSTMCell) (acc : Option CMatrix) :
    (s.foldl
      (fun (acc : Option CMatrix × LSTMCell) x =>
        let r := lstm_cell_forward acc.2 x
        (some r.1, r.2))
      (acc, c)).2 = lstmFoldCell c s := by
  induction s generalizing c acc with
  | nil => rfl
  | cons x t ih => exact ih _ _

lemma predictFold_snd (s : List CMatrix) (c : LSTMCell) :
    (predictFold c s).2 = lstmFoldCell c s :=
  predictFoldAux_snd s c none

lemma predictFold_fst_concat (l : List CMatrix) (x : CMatrix) (c : LSTMCell) :
    (predictFold c (l ++ [x])).1 = some (lstm_cell_forward (lstmFoldCell c l) x).1 := by
  unfold predictFold
  rw [List.foldl_append]
  show some (lstm_cell_forward (l.foldl _ (none, c)).2 x).1 = _
  rw [predictFoldAux_snd]

lemma project_spec (W b h : CMatrix) {osz hsz : Nat} (hW : W.Shaped osz hsz)
    (hb : b.Shaped osz 1) (hh : h.Shaped hsz 1) :
    ∃ out, oadd (omul (some W) (some h)) (some b) = some out ∧ out.Shaped osz 1 ∧
      ∀ i < osz, out.entry i 0 = sumR hsz (fun j => W.entry i j * h.entry j 0) + b.entry i 0 := by
  obtain ⟨hWr, hWc, hWwf⟩ := hW
  have h1 := matrix_multiply_eq W h (by rw [hWc, hh.1])
  have h2 := matrix_add_eq (ofFn W.rows h.cols fun i j => sumR W.cols fun k =>
    W.entry i k * h.entry k j) b (by rw [ofFn_rows, hWr, hb.1])
    (by rw [ofFn_cols, hh.2.1, hb.2.1])
  refine ⟨ofFn W.rows h.cols fun i j =>
    (ofFn W.rows h.cols fun i j => sumR W.cols fun k => W.entry i k * h.entry k j).entry i j +
      b.entry i j, ?_, ?_, ?_⟩
  · simp only [omul]
    rw [h1]
    simp only [oadd]
    rw [h2]
    rfl
  · rw [← hWr, ← hh.2.1]
    exact ofFn_shaped _ _ _
  · intro i hi
    rw [ofFn_entry _ _ _ (by rw [hWr]; exact hi) (by rw [hh.2.1]; omega),
      ofFn_entry _ _ _ (by rw [hWr]; exact hi) (by rw [hh.2.1]; omega), hWc]

lemma lstm_network_predict_fst (net : LSTMNetwork) (s : List CMatrix) :
    (lstm_network_predict net s).1 =
      { lstm_network_reset net with
          lstm_layer := lstmFoldCell (lstm_cell_reset_state net.lstm_layer) s } := by
  show ({ lstm_network_reset net with
    lstm_layer := (predictFold (lstm_network_reset net).lstm_layer s).2 } : LSTMNetwork) = _
  rw [predictFold_snd]
  rfl

lemma lstm_network_predict_snd_concat (net : LSTMNetwork) (l : List CMatrix) (x : CMatrix) :
    (lstm_network_predict net (l ++ [x])).2 =
      oadd (omul (some net.W_output)
        (some (lstm_cell_forward (lstmFoldCell (lstm_cell_reset_state net.lstm_layer) l) x).1))
        (some net.b_output) := by
  show (match (predictFold (lstm_network_reset net).lstm_layer (l ++ [x])).1 with
    | none => none
    | some h => oadd (omul (some net.W_output) (some h)) (some net.b_output)) = _
  rw [predictFold_fst_concat]
  rfl

end PredictLemmas

section Claim2

/-- C2: for every network and non-empty list of `(input_size, 1)`
timestep matrices, `lstm_network_predict` first resets the cell's hidden
and cell state to zero, feeds each timestep through the cell in order
(the network's resulting cell is exactly the fold of `lstm_cell_forward`
over the sequence from the reset cell, every hidden output except the
last having been discarded), and returns `W_output·hidden_last +
b_output`, a well-formed matrix of shape `(output_size, 1)`. -/
theorem lstm_network_predict_correct (net : LSTMNetwork) (s : List CMatrix)
    (hnet : NetWF net) (hne : s ≠ []) (hs : ∀ m ∈ s, m.Shaped net.input_size 1) :
    ∃ out,
      (lstm_network_predict net s).2 = some out ∧
        out.Shaped net.output_size 1 ∧
        (lstm_network_predict net s).1.lstm_layer =
          lstmFoldCell (lstm_cell_reset_state net.lstm_layer) s ∧
        ∀ i < net.output_size,
          out.entry i 0 =
            sumR net.hidden_size
              (fun j => net.W_output.entry i j *
                (lstm_network_predict net s).1.lstm_layer.hidden_state.entry j 0) +
              net.b_output.entry i 0 := by
  obtain ⟨hcell, hisz, hhsz, hWsh, hbsh⟩ := hnet
  rcases List.eq_nil_or_concat s with rfl | ⟨l, x, rfl⟩
  · exact absurd rfl hne
  rw [List.concat_eq_append] at hs ⊢
  have hc0 : CellWF (lstm_cell_reset_state net.lstm_layer) :=
    lstm_cell_reset_state_wf _ hcell
  have hc0i : (lstm_cell_reset_state net.lstm_layer).input_size = net.input_size := hisz
  have hc0h : (lstm_cell_reset_state net.lstm_layer).hidden_size = net.hidden_size := hhsz
  have hs0 : ∀ m ∈ l ++ [x],
      m.Shaped (lstm_cell_reset_state net.lstm_layer).input_size 1 := by
    intro m hm
    rw [hc0i]
    exact hs m hm
  have hfoldl_wf : CellWF (lstmFoldCell (lstm_cell_reset_state net.lstm_layer) l) :=
    lstmFoldCell_wf _ l hc0 fun m hm => hs0 m (List.mem_append_left _ hm)
  have hfold_wf : CellWF (lstmFoldCell (lstm_cell_reset_state net.lstm_layer) (l ++ [x])) :=
    lstmFoldCell_wf _ _ hc0 hs0
  have hh : (lstm_cell_forward (lstmFoldCell (lstm_cell_reset_state net.lstm_layer) l) x).1 =
      (lstmFoldCell (lstm_cell_reset_state net.lstm_layer) (l ++ [x])).hidden_state := by
    rw [lstm_cell_forward_fst_eq _ _ hfoldl_wf, lstmFoldCell_concat]
  have hfinal_hs : (lstmFoldCell (lstm_cell_reset_state net.lstm_layer)
      (l ++ [x])).hidden_state.Shaped net.hidden_size 1 := by
    have h14 := hfold_wf.2.2.2.2.2.2.2.2.2.2.2.2.2.1
    rwa [lstmFoldCell_hidden_size, hc0h] at h14
  obtain ⟨out, hout, houtsh, houtent⟩ := project_spec net.W_output net.b_output
    (lstmFoldCell (lstm_cell_reset_state net.lstm_layer) (l ++ [x])).hidden_state
    ⟨hWsh.1, hWsh.2.1, hWsh.2.2⟩ hbsh hfinal_hs
  refine ⟨out, ?_, houtsh, ?_, ?_⟩
  · rw [lstm_network_predict_snd_concat, hh]
    exact hout
  · rw [lstm_network_predict_fst]
  · intro i hi
    rw [lstm_network_predict_fst]
    exact houtent i hi

/-- Witness for C2 at the concrete zero-dimension network and a
one-timestep sequence. -/
theorem lstm_network_predict_correct_witness :
    NetWF netZ ∧
      ∃ out,
        (lstm_network_predict netZ [colZ]).2 = some out ∧
          out.Shaped netZ.output_size 1 ∧
          (lstm_network_predict netZ [colZ]).1.lstm_layer =
            lstmFoldCell (lstm_cell_reset_state netZ.lstm_layer) [colZ] ∧
          ∀ i < netZ.output_size,
            out.entry i 0 =
              sumR netZ.hidden_size
                (fun j => netZ.W_output.entry i j *
                  (lstm_network_predict netZ [colZ]).1.lstm_layer.hidden_state.entry j 0) +
                netZ.b_output.entry i 0 :=
  ⟨by decide,
    lstm_network_predict_correct netZ [colZ] (by decide)
      (by simp) (by intro m hm; simp only [List.mem_singleton] at hm; subst hm; decide)⟩

end Claim2

section TrainLemmas

lemma lstm_cell_forward_cellWeights (c : LSTMCell) (x : CMatrix) :
    cellWeights (lstm_cell_forward c x).2 = cellWeights c := rfl

lemma lstm_cell_reset_cellWeights (c : LSTMCell) :
    cellWeights (lstm_cell_reset_state c) = cellWeights c := rfl

lemma lstmFoldCell_cellWeights (c : LSTMCell) (s : List CMatrix) :
    cellWeights (lstmFoldCell c s) = cellWeights c := by
  induction s generalizing c with
  | nil => rfl
  | cons x t ih => rw [lstmFoldCell_cons, ih, lstm_cell_forward_cellWeights]

lemma lstm_network_predict_frame (net : LSTMNetwork) (s : List CMatrix) :
    cellWeights (lstm_network_predict net s).1.lstm_layer = cellWeights net.lstm_layer ∧
      (lstm_network_predict net s).1.W_output = net.W_output ∧
      (lstm_network_predict net s).1.b_output = net.b_output ∧
      (lstm_network_predict net s).1.learning_rate = net.learning_rate := by
  rw [lstm_network_predict_fst]
  exact ⟨lstmFoldCell_cellWeights _ s, rfl, rfl, rfl⟩

lemma lstm_train_pair_eq_some (net : LSTMNetwork) (input : List CMatrix)
    (target pred : CMatrix) (h : (lstm_network_predict net input).2 = some pred) :
    lstm_train_pair net input target =
      { (lstm_network_predict net input).1 with
        W_output := matrix_copy_opt (lstm_network_predict net input).1.W_output
          (oadd (some (lstm_network_predict net input).1.W_output)
            (omul
              (Option.map
                (fun e => matrix_scale e (lstm_network_predict net input).1.learning_rate)
                (osub (some target) (some pred)))
              (some (matrix_transpose
                (lstm_network_predict net input).1.lstm_layer.hidden_state)))) } := by
  simp only [lstm_train_pair]
  rw [h]

lemma lstm_train_pair_eq_none (net : LSTMNetwork) (input : List CMatrix) (target : CMatrix)
    (h : (lstm_network_predict net input).2 = none) :
    lstm_train_pair net input target = (lstm_network_predict net input).1 := by
  simp only [lstm_train_pair]
  rw [h]

lemma lstm_train_pair_frame (net : LSTMNetwork) (input : List CMatrix) (target : CMatrix) :
    cellWeights (lstm_train_pair net input target).lstm_layer = cellWeights net.lstm_layer ∧
      (lstm_train_pair net input target).b_output = net.b_output := by
  obtain ⟨hcw, _, hb, _⟩ := lstm_network_predict_frame net input
  cases hp : (lstm_network_predict net input).2 with
  | none => rw [lstm_train_pair_eq_none net input target hp]; exact ⟨hcw, hb⟩
  | some pred => rw [lstm_train_pair_eq_some net input target pred hp]; exact ⟨hcw, hb⟩

lemma lstm_train_epoch_frame (net : LSTMNetwork) (data : TrainingData) :
    cellWeights (lstm_train_epoch net data).lstm_layer = cellWeights net.lstm_layer ∧
      (lstm_train_epoch net data).b_output = net.b_output := by
  unfold lstm_train_epoch
  induction data.num_sequences with
  | zero => exact ⟨rfl, rfl⟩
  | succ n ih =>
    rw [List.range_succ, List.foldl_append]
    obtain ⟨ih1, ih2⟩ := ih
    obtain ⟨h1, h2⟩ := lstm_train_pair_frame
      ((List.range n).foldl (fun n seq =>
        lstm_train_pair n (data.inputs.getD seq []) (data.targets.getD seq (mkMatrix 0 0))) net)
      (data.inputs.getD n []) (data.targets.getD n (mkMatrix 0 0))
    exact ⟨by rw [List.foldl_cons, List.foldl_nil, h1, ih1],
      by rw [List.foldl_cons, List.foldl_nil, h2, ih2]⟩

lemma matrix_copy_ofFn (m : CMatrix) (f : Nat → Nat → ℝ) :
    matrix_copy m (ofFn m.rows m.cols f) = { m with data := (ofFn m.rows m.cols f).data } :=
  matrix_copy_eq _ _ rfl rfl

lemma copy_ofFn_entry (m : CMatrix) (f : Nat → Nat → ℝ) (i j : Nat) :
    (matrix_copy m (ofFn m.rows m.cols f)).entry i j = (ofFn m.rows m.cols f).entry i j := by
  rw [matrix_copy_ofFn]
  exact entry_congr_data _ _ rfl i j

lemma lstm_train_pair_W_output (net : LSTMNetwork) (input : List CMatrix)
    (target pred : CMatrix) (h : (lstm_network_predict net input).2 = some pred) :
    (lstm_train_pair net input target).W_output =
      matrix_copy_opt (lstm_network_predict net input).1.W_output
        (oadd (some (lstm_network_predict net input).1.W_output)
          (omul
            (Option.map
              (fun e => matrix_scale e (lstm_network_predict net input).1.learning_rate)
              (osub (some target) (some pred)))
            (some (matrix_transpose
              (lstm_network_predict net input).1.lstm_layer.hidden_state)))) := by
  rw [lstm_train_pair_eq_some net input target pred h]

end TrainLemmas

section Claim3

/-- C3: `lstm_train` mutates only `W_output`.  First conjunct: for every
network, training data and epoch count, the cell's eight weight matrices
and four biases and the output bias `b_output` of the trained network are
exactly those of the input network — they stay at their initial values
for the life of the model (only the cell's states, the scratch gates and
`W_output` change).  Second conjunct: each training pair performs
`W_output[i][j] += learning_rate·(target[i] − predicted[i]) ·
hidden_state_at_last_step[j]`, i.e. adds
`(learning_rate·(target − predicted))·hidden_stateᵀ`. -/
theorem lstm_train_updates_only_W_output :
    (∀ (net : LSTMNetwork) (data : TrainingData) (epochs : Nat),
        cellWeights (lstm_train net data epochs).lstm_layer = cellWeights net.lstm_layer ∧
          (lstm_train net data epochs).b_output = net.b_output) ∧
      ∀ (net : LSTMNetwork) (input : List CMatrix) (target : CMatrix),
        NetWF net → input ≠ [] → (∀ m ∈ input, m.Shaped net.input_size 1) →
        target.Shaped net.output_size 1 →
        ∃ pred, (lstm_network_predict net input).2 = some pred ∧
          ∀ i < net.output_size, ∀ j < net.hidden_size,
            (lstm_train_pair net input target).W_output.entry i j =
              net.W_output.entry i j +
                net.learning_rate * (target.entry i 0 - pred.entry i 0) *
                  (lstm_network_predict net input).1.lstm_layer.hidden_state.entry j 0 := by
  constructor
  · intro net data epochs
    unfold lstm_train
    induction epochs with
    | zero => exact ⟨rfl, rfl⟩
    | succ e ih =>
      rw [List.range_succ, List.foldl_append, List.foldl_cons, List.foldl_nil]
      obtain ⟨ih1, ih2⟩ := ih
      obtain ⟨h1, h2⟩ := lstm_train_epoch_frame
        ((List.range e).foldl (fun n _ => lstm_train_epoch n data) net) data
      exact ⟨h1.trans ih1, h2.trans ih2⟩
  · intro net input target hnet hne hs htg
    obtain ⟨pred, hpred, hpredsh, hfold, _⟩ := lstm_network_predict_correct net input hnet hne hs
    refine ⟨pred, hpred, ?_⟩
    obtain ⟨_, hW, _, hlr⟩ := lstm_network_predict_frame net input
    have hfs : (lstm_network_predict net input).1.lstm_layer.hidden_state.Shaped
        net.hidden_size 1 := by
      rw [hfold]
      have hwf := lstmFoldCell_wf (lstm_cell_reset_state net.lstm_layer) input
        (lstm_cell_reset_state_wf _ hnet.1)
        (fun m hm => by
          rw [show (lstm_cell_reset_state net.lstm_layer).input_size = net.input_size from
            hnet.2.1]
          exact hs m hm)
      have h14 := hwf.2.2.2.2.2.2.2.2.2.2.2.2.2.1
      rwa [lstmFoldCell_hidden_size,
        show (lstm_cell_reset_state net.lstm_layer).hidden_size = net.hidden_size from
          hnet.2.2.1] at h14
    have hWsh := hnet.2.2.2.1
    intro i hi j hj
    rw [lstm_train_pair_W_output net input target pred hpred, hW, hlr]
    have hsub := matrix_subtract_eq target pred (by rw [htg.1, hpredsh.1])
      (by rw [htg.2.1, hpredsh.2.1])
    have hEsh : (ofFn target.rows target.cols fun i j =>
        target.entry i j - pred.entry i j).Shaped net.output_size 1 := by
      rw [← htg.1, ← htg.2.1]
      exact ofFn_shaped _ _ _
    have hTsh : (matrix_transpose
        (lstm_network_predict net input).1.lstm_layer.hidden_state).Shaped
        1 net.hidden_size := matrix_transpose_shaped _ hfs
    simp only [osub]
    rw [hsub]
    simp only [Option.map_some', omul]
    rw [matrix_multiply_eq _ _ (show (matrix_scale (ofFn target.rows target.cols fun i j =>
      target.entry i j - pred.entry i j) net.learning_rate).cols =
        (matrix_transpose (lstm_network_predict net input).1.lstm_layer.hidden_state).rows by
      rw [hTsh.1]
      exact htg.2.1)]
    simp only [oadd]
    rw [matrix_add_eq _ _
      (show net.W_output.rows = _ by rw [hWsh.1]; exact (htg.1).symm)
      (show net.W_output.cols = _ by rw [hWsh.2.1]; exact (hfs.1).symm)]
    simp only [matrix_copy_opt]
    rw [copy_ofFn_entry]
    rw [ofFn_entry _ _ _ (by rw [hWsh.1]; exact hi) (by rw [hWsh.2.1]; exact hj)]
    rw [ofFn_entry _ _ _ (show i < (matrix_scale (ofFn target.rows target.cols fun i j =>
        target.entry i j - pred.entry i j) net.learning_rate).rows by
        rw [show (matrix_scale (ofFn target.rows target.cols fun i j =>
          target.entry i j - pred.entry i j) net.learning_rate).rows = net.output_size from
          hEsh.1]
        exact hi)
      (show j < (matrix_transpose
          (lstm_network_predict net input).1.lstm_layer.hidden_state).cols by
        rw [hTsh.2.1]
        exact hj)]
    rw [show (matrix_scale (ofFn target.rows target.cols fun i j =>
      target.entry i j - pred.entry i j) net.learning_rate).cols = 1 from hEsh.2.1]
    rw [sumR_one]
    rw [matrix_scale_entry _ _ hEsh.2.2
      (by rw [show (ofFn target.rows target.cols fun i j =>
        target.entry i j - pred.entry i j).rows = net.output_size from hEsh.1]; exact hi)
      (by rw [show (ofFn target.rows target.cols fun i j =>
        target.entry i j - pred.entry i j).cols = 1 from hEsh.2.1]; omega)]
    rw [ofFn_entry _ _ _ (by rw [htg.1]; exact hi) (by rw [htg.2.1]; omega)]
    rw [matrix_transpose_entry _ (by rw [hfs.2.1]; omega) (by rw [hfs.1]; exact hj)]
    ring

/-- Witness for C3 at the concrete zero-dimension network, an empty
training-data container and one concrete training pair. -/
theorem lstm_train_updates_only_W_output_witness :
    (cellWeights (lstm_train netZ ⟨[], [], 0, 1⟩ 1).lstm_layer =
        cellWeights netZ.lstm_layer ∧
      (lstm_train netZ ⟨[], [], 0, 1⟩ 1).b_output = netZ.b_output) ∧
      ∃ pred, (lstm_network_predict netZ [colZ]).2 = some pred ∧
        ∀ i < netZ.output_size, ∀ j < netZ.hidden_size,
          (lstm_train_pair netZ [colZ] colZ).W_output.entry i j =
            netZ.W_output.entry i j +
              netZ.learning_rate * (colZ.entry i 0 - pred.entry i 0) *
                (lstm_network_predict netZ [colZ]).1.lstm_layer.hidden_state.entry j 0 :=
  ⟨lstm_train_updates_only_W_output.1 netZ ⟨[], [], 0, 1⟩ 1,
    lstm_train_updates_only_W_output.2 netZ [colZ] colZ (by decide) (by simp)
      (by intro m hm; simp only [List.mem_singleton] at hm; subst hm; decide) (by decide)⟩

end Claim3

section SerializeLemmas

lemma readFloats_map (xs : List ℝ) (rest : List FileItem) :
    readFloats xs.length (xs.map FileItem.ffloat ++ rest) = some (xs, rest) := by
  induction xs with
  | nil => rfl
  | cons x t ih =>
    show readFloats (t.length + 1) (FileItem.ffloat x :: (t.map FileItem.ffloat ++ rest)) = _
    rw [readFloats, ih]
    rfl

lemma readRows_rows (rows : List (List ℝ)) (w : Nat) (rest : List FileItem)
    (h : ∀ r ∈ rows, r.length = w) :
    readRows rows.length w ((rows.map fun r => r.map FileItem.ffloat).flatten ++ rest) =
      some (rows, rest) := by
  induction rows with
  | nil => rfl
  | cons row t ih =>
    have hw : row.length = w := h row (List.mem_cons_self row t)
    subst hw
    show readRows (t.length + 1) row.length
      ((row.map FileItem.ffloat ++ (t.map fun r => r.map FileItem.ffloat).flatten) ++ rest) = _
    rw [readRows, List.append_assoc,
      readFloats_map row ((t.map fun r => r.map FileItem.ffloat).flatten ++ rest),
      Option.some_bind, ih fun r hr => h r (List.mem_cons_of_mem _ hr), Option.map_some']

lemma map_range_getD_map {α β : Type} (l : List α) (n : Nat) (d : α) (g : α → β)
    (h : l.length = n) :
    (List.range n).map (fun i => g (l.getD i d)) = l.map g := by
  have h1 : (List.range n).map (fun i => g (l.getD i d)) =
      ((List.range n).map fun i => l.getD i d).map g := by
    rw [List.map_map]
    rfl
  rw [h1, map_range_getD l n d h]

lemma length_one_eq (l : List ℝ) (h : l.length = 1) : l = [l.getD 0 0] := by
  match l, h with
  | [a], _ => rfl

lemma save_W_section (W : CMatrix) (osz hsz : Nat) (h : W.Shaped osz hsz) :
    ((List.range osz).flatMap fun i =>
        (List.range hsz).map fun j => FileItem.ffloat (W.entry i j)) =
      (W.data.map fun r => r.map FileItem.ffloat).flatten := by
  obtain ⟨hr, hc, hlen, hrow⟩ := h
  rw [List.flatMap_def]
  congr 1
  have h1 : ∀ i ∈ List.range osz,
      ((List.range hsz).map fun j => FileItem.ffloat (W.entry i j)) =
        (W.data.getD i []).map FileItem.ffloat := by
    intro i hi
    have hlen' : (W.data.getD i []).length = hsz := by
      have hi' : i < W.data.length := by
        rw [hlen, hr]
        exact List.mem_range.1 hi
      rw [getD_eq_getElem _ _ _ hi']
      rw [hrow _ (List.getElem_mem hi'), hc]
    exact map_range_getD_map (W.data.getD i []) hsz 0 FileItem.ffloat hlen'
  rw [List.map_congr_left h1]
  exact map_range_getD_map W.data osz [] (fun r => r.map FileItem.ffloat) (by rw [hlen, hr])

lemma save_b_rows (b : CMatrix) (osz : Nat) (h : b.Shaped osz 1) :
    ((List.range osz).map fun i => [b.entry i 0]) = b.data := by
  obtain ⟨hr, hc, hlen, hrow⟩ := h
  have h1 : ∀ i ∈ List.range osz, ([b.entry i 0] : List ℝ) = b.data.getD i [] := by
    intro i hi
    have hi' : i < b.data.length := by
      rw [hlen, hr]
      exact List.mem_range.1 hi
    have hlen' : (b.data.getD i []).length = 1 := by
      rw [getD_eq_getElem _ _ _ hi', hrow _ (List.getElem_mem hi'), hc]
    rw [length_one_eq _ hlen']
    rfl
  rw [List.map_congr_left h1]
  exact map_range_getD b.data osz [] (by rw [hlen, hr])

lemma readRows_W (W : CMatrix) (osz hsz : Nat) (h : W.Shaped osz hsz)
    (rest : List FileItem) :
    readRows osz hsz ((W.data.map fun r => r.map FileItem.ffloat).flatten ++ rest) =
      some (W.data, rest) := by
  have hlen : W.data.length = osz := by rw [h.2.2.1, h.1]
  have := readRows_rows W.data hsz rest fun r hr => by rw [h.2.2.2 r hr, h.2.1]
  rwa [hlen] at this

lemma readFloats_b (b : CMatrix) (osz : Nat) (rest : List FileItem) :
    readFloats osz (((List.range osz).map fun i => FileItem.ffloat (b.entry i 0)) ++ rest) =
      some ((List.range osz).map fun i => b.entry i 0, rest) := by
  have := readFloats_map ((List.range osz).map fun i => b.entry i 0) rest
  rw [List.length_map, List.length_range, List.map_map] at this
  exact this

end SerializeLemmas

section Claim4

/-- C4: loading a saved model file succeeds and reproduces the persisted
fields exactly — `input_size`, `hidden_size`, `output_size`,
`learning_rate`, `sequence_length`, `W_output`, `b_output` and the
normalization parameters — while the LSTM cell, which is not persisted,
is the freshly (randomly) initialized cell of `lstm_network_create`
drawn from the loader's random oracle, independent of the saved
network's cell. -/
theorem save_load_roundtrip (net : LSTMNetwork) (rand : Nat → ℝ)
    (hW : net.W_output.Shaped net.output_size net.hidden_size)
    (hb : net.b_output.Shaped net.output_size 1) :
    ∃ net', load_lstm_model rand (save_lstm_model net) = some net' ∧
      net'.input_size = net.input_size ∧ net'.hidden_size = net.hidden_size ∧
      net'.output_size = net.output_size ∧ net'.learning_rate = net.learning_rate ∧
      net'.sequence_length = net.sequence_length ∧
      net'.W_output = net.W_output ∧ net'.b_output = net.b_output ∧
      net'.norm_params = net.norm_params ∧
      net'.lstm_layer =
        (lstm_network_create rand net.input_size net.hidden_size net.output_size).lstm_layer := by
  obtain ⟨cell, W, b, isz, hsz, osz, lr, sl, np⟩ := net
  simp only at hW hb ⊢
  cases np with
  | none =>
    have hsave2 : save_lstm_model ⟨cell, W, b, isz, hsz, osz, lr, sl, none⟩ =
        FileItem.fint (isz : Int) :: FileItem.fint (hsz : Int) :: FileItem.fint (osz : Int) ::
          FileItem.ffloat lr :: FileItem.fint (sl : Int) ::
          ((W.data.map fun r => r.map FileItem.ffloat).flatten ++
            (((List.range osz).map fun i => FileItem.ffloat (b.entry i 0)) ++
              [FileItem.fint 0])) := by
      simp only [save_lstm_model]
      rw [save_W_section W osz hsz hW]
      simp [List.append_assoc]
    rw [hsave2]
    simp only [load_lstm_model, Int.toNat_natCast]
    rw [readRows_W W osz hsz hW, Option.some_bind, readFloats_b b osz, Option.some_bind]
    exact ⟨_, rfl, rfl, rfl, rfl, rfl, rfl,
      CMatrix.ext hW.1.symm hW.2.1.symm rfl,
      CMatrix.ext hb.1.symm hb.2.1.symm
        (by rw [List.map_map]; exact save_b_rows b osz hb),
      rfl, rfl⟩
  | some p =>
    have hsave2 : save_lstm_model ⟨cell, W, b, isz, hsz, osz, lr, sl, some p⟩ =
        FileItem.fint (isz : Int) :: FileItem.fint (hsz : Int) :: FileItem.fint (osz : Int) ::
          FileItem.ffloat lr :: FileItem.fint (sl : Int) ::
          ((W.data.map fun r => r.map FileItem.ffloat).flatten ++
            (((List.range osz).map fun i => FileItem.ffloat (b.entry i 0)) ++
              (FileItem.fint 1 :: normParamsItems p))) := by
      simp only [save_lstm_model]
      rw [save_W_section W osz hsz hW]
      simp [List.append_assoc]
    rw [hsave2]
    simp only [load_lstm_model, Int.toNat_natCast]
    rw [readRows_W W osz hsz hW, Option.some_bind, readFloats_b b osz, Option.some_bind]
    exact ⟨_, rfl, rfl, rfl, rfl, rfl, rfl,
      CMatrix.ext hW.1.symm hW.2.1.symm rfl,
      CMatrix.ext hb.1.symm hb.2.1.symm
        (by rw [List.map_map]; exact save_b_rows b osz hb),
      rfl, rfl⟩

/-- Witness for C4 at the concrete zero-dimension network. -/
theorem save_load_roundtrip_witness :
    CMatrix.Shaped netZ.W_output netZ.output_size netZ.hidden_size ∧
      ∃ net', load_lstm_model (fun _ => 0) (save_lstm_model netZ) = some net' ∧
        net'.input_size = netZ.input_size ∧ net'.hidden_size = netZ.hidden_size ∧
        net'.output_size = netZ.output_size ∧ net'.learning_rate = netZ.learning_rate ∧
        net'.sequence_length = netZ.sequence_length ∧
        net'.W_output = netZ.W_output ∧ net'.b_output = netZ.b_output ∧
        net'.norm_params = netZ.norm_params ∧
        net'.lstm_layer = (lstm_network_create (fun _ => 0) netZ.input_size netZ.hidden_size
          netZ.output_size).lstm_layer :=
  ⟨by decide, save_load_roundtrip netZ (fun _ => 0) (by decide) (by decide)⟩

end Claim4

section Claim5

lemma window_eq (ds : List WeatherPoint) (i W : Nat) (h : i + W ≤ ds.length) :
    (List.range W).map (fun t => ds.getD (i + t) zeroWeatherPoint) = (ds.drop i).take W := by
  have hlen : ((ds.drop i).take W).length = W := by
    rw [List.length_take, List.length_drop]
    omega
  rw [← map_range_getD ((ds.drop i).take W) W zeroWeatherPoint hlen]
  apply List.map_congr_left
  intro t ht
  rw [List.mem_range] at ht
  rw [List.getD_eq_getElem?_getD, List.getD_eq_getElem?_getD, List.getElem?_take,
    if_pos ht, List.getElem?_drop]

/-- C5, amended: the claim as frozen fails at `sequence_length = 0` (see
the counterexample), because `create_training_data` rejects
`sequence_length <= 0` outright.  For every window length `W ≥ 1`:
on a dataset of `N ≤ W` points the builder fails (returns NULL), and on
`N > W` points it succeeds with exactly `N − W` (= `max 0 (N − W)`)
pairs, pair `i` holding fresh conversions (independent copies) of
`dataset[i .. i+W)` as its input window and of `dataset[i+W]` as its
target. -/
theorem create_training_data_spec (ds : List WeatherPoint) (W : Nat) (hW : 1 ≤ W) :
    (ds.length ≤ W → create_training_data ds W = none) ∧
      (W < ds.length → ∃ td, create_training_data ds W = some td ∧
        td.num_sequences = ds.length - W ∧ td.sequence_length = W ∧
        td.inputs.length = ds.length - W ∧ td.targets.length = ds.length - W ∧
        ∀ i < ds.length - W,
          td.inputs.getD i [] = ((ds.drop i).take W).map weather_point_to_matrix ∧
          td.targets.getD i (mkMatrix 0 0) =
            weather_point_to_matrix (ds.getD (i + W) zeroWeatherPoint)) := by
  constructor
  · intro h
    unfold create_training_data
    rw [if_pos (Or.inr h)]
  · intro h
    unfold create_training_data
    rw [if_neg (by omega)]
    refine ⟨_, rfl, rfl, rfl, by simp, by simp, ?_⟩
    intro i hi
    constructor
    · have hlt : i < ((List.range (ds.length - W)).map fun i =>
          (List.range W).map fun t =>
            weather_point_to_matrix (ds.getD (i + t) zeroWeatherPoint)).length := by
        simpa using hi
      rw [getD_eq_getElem _ _ _ hlt]
      simp only [List.getElem_map, List.getElem_range]
      rw [← window_eq ds i W (by omega), List.map_map]
      rfl
    · have hlt : i < ((List.range (ds.length - W)).map fun i =>
          weather_point_to_matrix (ds.getD (i + W) zeroWeatherPoint)).length := by
        simpa using hi
      rw [getD_eq_getElem _ _ _ hlt]
      simp only [List.getElem_map, List.getElem_range]

/-- C5 counterexample: on a one-point dataset with `sequence_length = 0`
the claim, as frozen, demands `max 0 (1 − 0) = 1` training pair (since it
requires failure only when `N ≤ W`, and here `N = 1 > 0 = W`), but
`create_training_data` rejects `sequence_length <= 0` and returns NULL. -/
theorem create_training_data_zero_window_counterexample :
    create_training_data [zeroWeatherPoint] 0 = none ∧ max 0 (1 - 0) = 1 ∧ ¬(1 ≤ 0) := by
  refine ⟨?_, rfl, by omega⟩
  unfold create_training_data
  rw [if_pos (Or.inl le_rfl)]

/-- Witness for C5 (amended) on a concrete two-point dataset with window
length 1. -/
theorem create_training_data_spec_witness :
    (1 : Nat) ≤ 1 ∧ 1 < ([zeroWeatherPoint, zeroWeatherPoint] : List WeatherPoint).length ∧
      ∃ td, create_training_data [zeroWeatherPoint, zeroWeatherPoint] 1 = some td ∧
        td.num_sequences = [zeroWeatherPoint, zeroWeatherPoint].length - 1 ∧
        td.sequence_length = 1 ∧
        td.inputs.length = [zeroWeatherPoint, zeroWeatherPoint].length - 1 ∧
        td.targets.length = [zeroWeatherPoint, zeroWeatherPoint].length - 1 ∧
        ∀ i < [zeroWeatherPoint, zeroWeatherPoint].length - 1,
          td.inputs.getD i [] =
            (([zeroWeatherPoint, zeroWeatherPoint].drop i).take 1).map
              weather_point_to_matrix ∧
          td.targets.getD i (mkMatrix 0 0) =
            weather_point_to_matrix
              ([zeroWeatherPoint, zeroWeatherPoint].getD (i + 1) zeroWeatherPoint) :=
  ⟨le_rfl, by decide,
    (create_training_data_spec [zeroWeatherPoint, zeroWeatherPoint] 1 le_rfl).2 (by decide)⟩

end Claim5

section Claim6

/-- C6, amended: `matrix_create` performs no dimension validation at all.
With allocation modelled as succeeding, it returns a zero-filled matrix
of exactly the requested shape for every `rows` and `cols`, including
the degenerate empty-data matrices at `rows = 0` or `cols = 0`; it does
not fail on non-positive dimensions (the C code returns NULL only on
allocation failure). -/
theorem matrix_create_no_dimension_check (rows cols : Nat) :
    matrix_create rows cols = some (mkMatrix rows cols) ∧
      (mkMatrix rows cols).Shaped rows cols ∧
      ∀ i j, (mkMatrix rows cols).entry i j = 0 :=
  ⟨rfl, mkMatrix_shaped rows cols, fun i j => mkMatrix_entry rows cols i j⟩

/-- C6 counterexample: at `rows = 0`, `cols = 5` the claim demands
failure (NULL), but `matrix_create` succeeds, returning a matrix with
zero rows. -/
theorem matrix_create_zero_rows_counterexample :
    matrix_create 0 5 = some (mkMatrix 0 5) ∧ matrix_create 0 5 ≠ none :=
  ⟨rfl, by simp [matrix_create]⟩

end Claim6

section Claim7

/-- C7, amended: when the dataset holds fewer than `seq_length` points,
`lstm_predict_next` fails by returning the zero-initialized
`WeatherPoint` — not a distinct failure value: the same default weather
point a genuine all-zero prediction would produce (see the
counterexample). -/
theorem lstm_predict_next_insufficient_data (net : LSTMNetwork)
    (recent : List WeatherPoint) (seq_length : Nat) (h : recent.length < seq_length) :
    lstm_predict_next net recent seq_length = zeroWeatherPoint := by
  unfold lstm_predict_next
  rw [if_pos h]

/-- Witness for C7 (amended) at a concrete network and empty dataset. -/
theorem lstm_predict_next_insufficient_data_witness :
    ([] : List WeatherPoint).length < 1 ∧ lstm_predict_next net6 [] 1 = zeroWeatherPoint :=
  ⟨by decide, lstm_predict_next_insufficient_data net6 [] 1 (by decide)⟩

/-- C7 counterexample: the failure value is not distinct.  On the empty
dataset `lstm_predict_next` returns the zero-initialized default weather
point; and on a sufficient dataset the same network returns exactly the
same zero point as a successful prediction, so the caller cannot tell the
failure apart from a prediction. -/
theorem lstm_predict_next_counterexample :
    lstm_predict_next net6 [] 1 = zeroWeatherPoint ∧
      lstm_predict_next net6 [zeroWeatherPoint] 1 = zeroWeatherPoint := by
  constructor
  · unfold lstm_predict_next
    rw [if_pos (by decide)]
  · unfold lstm_predict_next
    rw [if_neg (by decide)]
    have h := lstm_network_predict_snd_concat net6 []
      (weather_point_to_matrix zeroWeatherPoint)
    simp only [List.nil_append] at h
    show (match (lstm_network_predict net6
        [weather_point_to_matrix zeroWeatherPoint]).2 with
      | some prediction => matrix_to_weather_point prediction
      | none => zeroWeatherPoint) = zeroWeatherPoint
    rw [h]
    obtain ⟨out, hout, houtsh, houtent⟩ := project_spec net6.W_output net6.b_output
      (lstm_cell_forward (lstmFoldCell (lstm_cell_reset_state net6.lstm_layer) [])
        (weather_point_to_matrix zeroWeatherPoint)).1
      (show net6.W_output.Shaped 6 0 by decide) (show net6.b_output.Shaped 6 1 by decide)
      (by decide)
    rw [hout]
    show matrix_to_weather_point out = zeroWeatherPoint
    unfold matrix_to_weather_point
    rw [if_pos ⟨houtsh.1, houtsh.2.1⟩]
    have hz : ∀ i, i < 6 → out.entry i 0 = 0 := by
      intro i hi
      rw [houtent i hi, sumR_zero,
        show net6.b_output = mkMatrix 6 1 from rfl, mkMatrix_entry]
      norm_num
    refine WeatherPoint.ext ?_ ?_ ?_ ?_ ?_ ?_ <;>
      simp only [zeroWeatherPoint] <;> first
        | exact hz 0 (by omega)
        | exact hz 1 (by omega)
        | exact hz 2 (by omega)
        | exact hz 3 (by omega)
        | exact hz 4 (by omega)
        | exact hz 5 (by omega)

end Claim7

section Claim8

lemma setEntry_entry_col_ne (m : CMatrix) (i j : Nat) (v : ℝ) (j' : Nat) (h : j' ≠ j) :
    (m.setEntry i j v).entry i j' = m.entry i j' := by
  show ((m.data.set i ((m.data.getD i []).set j v)).getD i []).getD j' 0 =
    (m.data.getD i []).getD j' 0
  rcases lt_or_le i m.data.length with hi | hi
  · have h1 : (m.data.set i ((m.data.getD i []).set j v)).getD i [] =
        (m.data.getD i []).set j v := by
      rw [List.getD_eq_getElem?_getD, List.getElem?_set_self', List.getElem?_eq_getElem hi]
      rfl
    rw [h1, List.getD_eq_getElem?_getD, List.getElem?_set_ne (Ne.symm h),
      ← List.getD_eq_getElem?_getD]
  · rw [List.set_eq_of_length_le hi]

/-- C8: for every well-formed matrix, `matrix_get` returns the stored
element at in-bounds indices and the sentinel `0.0` at any index outside
`[0, rows) × [0, cols)`; `matrix_set` stores the given value at in-bounds
indices (leaving every other element and the shape unchanged) and is a
complete no-op out of bounds. -/
theorem matrix_get_set_spec (m : CMatrix) {r c : Nat} (hm : m.Shaped r c)
    (row col : Int) (v : ℝ) :
    (¬(0 ≤ row ∧ row < (r : Int) ∧ 0 ≤ col ∧ col < (c : Int)) →
      matrix_get m row col = 0 ∧ matrix_set m row col v = m) ∧
    ((0 ≤ row ∧ row < (r : Int) ∧ 0 ≤ col ∧ col < (c : Int)) →
      matrix_get m row col = m.entry row.toNat col.toNat ∧
      (matrix_set m row col v).rows = m.rows ∧ (matrix_set m row col v).cols = m.cols ∧
      (matrix_set m row col v).entry row.toNat col.toNat = v ∧
      ∀ i j : Nat, ¬(i = row.toNat ∧ j = col.toNat) →
        (matrix_set m row col v).entry i j = m.entry i j) := by
  obtain ⟨h1, h2, hwf⟩ := hm
  constructor
  · intro hout
    have hcond : row < 0 ∨ (m.rows : Int) ≤ row ∨ col < 0 ∨ (m.cols : Int) ≤ col := by
      rw [h1, h2]
      omega
    exact ⟨by rw [matrix_get, if_pos hcond], by rw [matrix_set, if_pos hcond]⟩
  · intro hin
    have hcond : ¬(row < 0 ∨ (m.rows : Int) ≤ row ∨ col < 0 ∨ (m.cols : Int) ≤ col) := by
      rw [h1, h2]
      omega
    have hrow : row.toNat < m.rows := by rw [h1]; omega
    have hcol : col.toNat < m.cols := by rw [h2]; omega
    refine ⟨by rw [matrix_get, if_neg hcond], ?_, ?_, ?_, ?_⟩
    · rw [matrix_set, if_neg hcond]; rfl
    · rw [matrix_set, if_neg hcond]; rfl
    · rw [matrix_set, if_neg hcond]
      exact setEntry_entry_eq m _ _ v hwf hrow hcol
    · intro i j hne
      rw [matrix_set, if_neg hcond]
      rcases Nat.decEq i row.toNat with hi | hi
      · exact setEntry_entry_row_ne m _ _ v i j hi
      · subst hi
        have hj : j ≠ col.toNat := fun hj => hne ⟨rfl, hj⟩
        exact setEntry_entry_col_ne m _ _ v j hj

/-- Witness for C8 at the concrete `1 × 1` zero matrix, one out-of-bounds
and one in-bounds index. -/
theorem matrix_get_set_spec_witness :
    (matrix_get (mkMatrix 1 1) 5 0 = 0 ∧ matrix_set (mkMatrix 1 1) 5 0 7 = mkMatrix 1 1) ∧
      (matrix_get (mkMatrix 1 1) 0 0 =
          (mkMatrix 1 1).entry (Int.toNat 0) (Int.toNat 0) ∧
        (matrix_set (mkMatrix 1 1) 0 0 7).rows = (mkMatrix 1 1).rows ∧
        (matrix_set (mkMatrix 1 1) 0 0 7).cols = (mkMatrix 1 1).cols ∧
        (matrix_set (mkMatrix 1 1) 0 0 7).entry (Int.toNat 0) (Int.toNat 0) = 7 ∧
        ∀ i j : Nat, ¬(i = Int.toNat 0 ∧ j = Int.toNat 0) →
          (matrix_set (mkMatrix 1 1) 0 0 7).entry i j = (mkMatrix 1 1).entry i j) :=
  ⟨(@matrix_get_set_spec (mkMatrix 1 1) 1 1 (by decide) 5 0 7).1 (by decide),
    (@matrix_get_set_spec (mkMatrix 1 1) 1 1 (by decide) 0 0 7).2 (by decide)⟩

end Claim8

section Claim9

lemma roundtrip_scalar (x lo hi : ℝ) (h1 : lo ≤ x) (h2 : x ≤ hi) :
    (if hi - lo > 0 then (if hi - lo > 0 then (x - lo) / (hi - lo) else 0.5) * (hi - lo) + lo
     else lo) = x := by
  by_cases h : hi - lo > 0
  · rw [if_pos h, if_pos h, div_mul_cancel₀ _ (ne_of_gt h), sub_add_cancel]
  · rw [if_neg h]
    have : x = lo := le_antisymm (by linarith) h1
    exact this.symm

/-- C9: for normalization parameters computed from a dataset and any
weather point whose features lie within the per-feature `[min, max]`
ranges, denormalizing the normalized point recovers the point exactly
(doubles being modelled as reals, the floating-point tolerance of the
claim is met with zero error); for a constant feature (`min = max`),
normalization maps to `0.5` and denormalization maps back to the shared
`min`, which a point within the degenerate range necessarily equals. -/
theorem normalize_denormalize_roundtrip (ds : List WeatherPoint)
    (params : NormalizationParams) (p : WeatherPoint)
    (_hcomputed : calculate_normalization_params ds = some params)
    (hp : params.temp_min ≤ p.temperature ∧ p.temperature ≤ params.temp_max ∧
      params.pressure_min ≤ p.pressure ∧ p.pressure ≤ params.pressure_max ∧
      params.humidity_min ≤ p.humidity ∧ p.humidity ≤ params.humidity_max ∧
      params.wind_speed_min ≤ p.wind_speed ∧ p.wind_speed ≤ params.wind_speed_max ∧
      params.wind_dir_min ≤ p.wind_direction ∧ p.wind_direction ≤ params.wind_dir_max ∧
      params.precip_min ≤ p.precipitation ∧ p.precipitation ≤ params.precip_max) :
    denormalize_point (normalize_point p params) params = p := by
  obtain ⟨a1, a2, b1, b2, c1, c2, d1, d2, e1, e2, f1, f2⟩ := hp
  exact WeatherPoint.ext
    (roundtrip_scalar p.temperature params.temp_min params.temp_max a1 a2)
    (roundtrip_scalar p.pressure params.pressure_min params.pressure_max b1 b2)
    (roundtrip_scalar p.humidity params.humidity_min params.humidity_max c1 c2)
    (roundtrip_scalar p.wind_speed params.wind_speed_min params.wind_speed_max d1 d2)
    (roundtrip_scalar p.wind_direction params.wind_dir_min params.wind_dir_max e1 e2)
    (roundtrip_scalar p.precipitation params.precip_min params.precip_max f1 f2)

/-- Witness for C9 at the one-point dataset of the zero weather point
(whose parameters are all degenerate, exercising the constant-feature
branch). -/
theorem normalize_denormalize_roundtrip_witness :
    calculate_normalization_params [zeroWeatherPoint] = some (normInit zeroWeatherPoint) ∧
      denormalize_point (normalize_point zeroWeatherPoint (normInit zeroWeatherPoint))
        (normInit zeroWeatherPoint) = zeroWeatherPoint :=
  ⟨rfl, normalize_denormalize_roundtrip [zeroWeatherPoint] (normInit zeroWeatherPoint)
    zeroWeatherPoint rfl
    ⟨le_rfl, le_rfl, le_rfl, le_rfl, le_rfl, le_rfl,
      le_rfl, le_rfl, le_rfl, le_rfl, le_rfl, le_rfl⟩⟩

end Claim9

section Claim10

lemma heap_frame_of_append (h : List CMatrix) (x : CMatrix) :
    (∀ k < h.length, (h ++ [x])[k]? = h[k]?) ∧ (h ++ [x])[h.length]? = some x := by
  constructor
  · intro k hk
    exact List.getElem?_append_left hk
  · rw [List.getElem?_append_right le_rfl]
    simp

/-- C10: `matrix_multiply`, `matrix_add`, `matrix_subtract` and
`matrix_transpose`, viewed on the heap of live matrices, leave every
existing heap cell — in particular both operands — completely unchanged
whenever they succeed, and return a freshly allocated result: the
returned pointer is the new index `h.length`, distinct from every
operand index, holding the result value. -/
theorem matrix_ops_frame :
    (∀ (h : List CMatrix) (ia ib r : Nat) (h' : List CMatrix),
      matrix_multiply_heap h ia ib = some (h', r) →
        (∀ k < h.length, h'[k]? = h[k]?) ∧ r = h.length ∧ ∃ res, h' = h ++ [res]) ∧
    (∀ (h : List CMatrix) (ia ib r : Nat) (h' : List CMatrix),
      matrix_add_heap h ia ib = some (h', r) →
        (∀ k < h.length, h'[k]? = h[k]?) ∧ r = h.length ∧ ∃ res, h' = h ++ [res]) ∧
    (∀ (h : List CMatrix) (ia ib r : Nat) (h' : List CMatrix),
      matrix_subtract_heap h ia ib = some (h', r) →
        (∀ k < h.length, h'[k]? = h[k]?) ∧ r = h.length ∧ ∃ res, h' = h ++ [res]) ∧
    (∀ (h : List CMatrix) (ia r : Nat) (h' : List CMatrix),
      matrix_transpose_heap h ia = some (h', r) →
        (∀ k < h.length, h'[k]? = h[k]?) ∧ r = h.length ∧ ∃ res, h' = h ++ [res]) := by
  refine ⟨?_, ?_, ?_, ?_⟩
  · intro h ia ib r h' heq
    unfold matrix_multiply_heap at heq
    split at heq
    · split at heq
      · obtain ⟨rfl, rfl⟩ := Prod.mk.injEq .. ▸ Option.some.inj heq
        exact ⟨(heap_frame_of_append h _).1, rfl, _, rfl⟩
      · exact absurd heq (by simp)
    · exact absurd heq (by simp)
  · intro h ia ib r h' heq
    unfold matrix_add_heap at heq
    split at heq
    · split at heq
      · obtain ⟨rfl, rfl⟩ := Prod.mk.injEq .. ▸ Option.some.inj heq
        exact ⟨(heap_frame_of_append h _).1, rfl, _, rfl⟩
      · exact absurd heq (by simp)
    · exact absurd heq (by simp)
  · intro h ia ib r h' heq
    unfold matrix_subtract_heap at heq
    split at heq
    · split at heq
      · obtain ⟨rfl, rfl⟩ := Prod.mk.injEq .. ▸ Option.some.inj heq
        exact ⟨(heap_frame_of_append h _).1, rfl, _, rfl⟩
      · exact absurd heq (by simp)
    · exact absurd heq (by simp)
  · intro h ia r h' heq
    unfold matrix_transpose_heap at heq
    split at heq
    · obtain ⟨rfl, rfl⟩ := Prod.mk.injEq .. ▸ Option.some.inj heq
      exact ⟨(heap_frame_of_append h _).1, rfl, _, rfl⟩
    · exact absurd heq (by simp)

/-- Witness for C10: each of the four heap operations applied to concrete
heaps of degenerate matrices. -/
theorem matrix_ops_frame_witness :
    ((∀ k < ([mkMatrix 1 0, mkMatrix 0 1] : List CMatrix).length,
        ([mkMatrix 1 0, mkMatrix 0 1, mkMatrix 1 1] : List CMatrix)[k]? =
          ([mkMatrix 1 0, mkMatrix 0 1] : List CMatrix)[k]?) ∧
      2 = ([mkMatrix 1 0, mkMatrix 0 1] : List CMatrix).length ∧
      ∃ res, ([mkMatrix 1 0, mkMatrix 0 1, mkMatrix 1 1] : List CMatrix) =
        [mkMatrix 1 0, mkMatrix 0 1] ++ [res]) ∧
    ((∀ k < ([mkMatrix 1 0] : List CMatrix).length,
        ([mkMatrix 1 0, mkMatrix 1 0] : List CMatrix)[k]? =
          ([mkMatrix 1 0] : List CMatrix)[k]?) ∧
      1 = ([mkMatrix 1 0] : List CMatrix).length ∧
      ∃ res, ([mkMatrix 1 0, mkMatrix 1 0] : List CMatrix) = [mkMatrix 1 0] ++ [res]) ∧
    ((∀ k < ([mkMatrix 1 0] : List CMatrix).length,
        ([mkMatrix 1 0, mkMatrix 1 0] : List CMatrix)[k]? =
          ([mkMatrix 1 0] : List CMatrix)[k]?) ∧
      1 = ([mkMatrix 1 0] : List CMatrix).length ∧
      ∃ res, ([mkMatrix 1 0, mkMatrix 1 0] : List CMatrix) = [mkMatrix 1 0] ++ [res]) ∧
    ((∀ k < ([mkMatrix 1 0] : List CMatrix).length,
        ([mkMatrix 1 0, mkMatrix 0 1] : List CMatrix)[k]? =
          ([mkMatrix 1 0] : List CMatrix)[k]?) ∧
      1 = ([mkMatrix 1 0] : List CMatrix).length ∧
      ∃ res, ([mkMatrix 1 0, mkMatrix 0 1] : List CMatrix) = [mkMatrix 1 0] ++ [res]) :=
  ⟨matrix_ops_frame.1 [mkMatrix 1 0, mkMatrix 0 1] 0 1 2
      [mkMatrix 1 0, mkMatrix 0 1, mkMatrix 1 1] rfl,
    matrix_ops_frame.2.1 [mkMatrix 1 0] 0 0 1 [mkMatrix 1 0, mkMatrix 1 0] rfl,
    matrix_ops_frame.2.2.1 [mkMatrix 1 0] 0 0 1 [mkMatrix 1 0, mkMatrix 1 0] rfl,
    matrix_ops_frame.2.2.2 [mkMatrix 1 0] 0 1 [mkMatrix 1 0, mkMatrix 0 1] rfl⟩

end Claim10

end WeatherLSTM
